import Mathlib

/-!
Verification development for the INGRES chatbot resolution pipeline
(server/server.js).  The deterministic question-resolution pipeline is
shallowly embedded: text normalization, temporal extraction,
intent/category classification, place resolution, SQL string
construction, the injection guard and the empty-result recovery
orchestration.  JavaScript regular expressions are embedded as dedicated
executable matchers that reproduce the semantics of the exact patterns
appearing in the source; JavaScript template interpolation of untyped
values is embedded via a small JS-value type.  The SQLite store is
embedded as a list of rows; the parameterized probe queries and
MAX(year) queries are given directly as list functions, while execution
of the *built* (string) statements is kept abstract as a function
parameter, since the claims about built statements are claims about the
strings and about the control flow around their execution.
-/

set_option maxRecDepth 10000

namespace Ingres

/-! ### Character classes (JavaScript regex semantics) -/

/-- JavaScript whitespace class `\s` (the members relevant to this code
base; the exotic Unicode space members are included for faithfulness of
the common ones). -/
def isJsWs (c : Char) : Bool :=
  c == ' ' || c == '\t' || c == '\n' || c == '\r' ||
  c == '\x0b' || c == '\x0c' || c == ' ' || c == '﻿' ||
  c == ' ' || c == ' '

/-- JavaScript line terminators, which the dot of a regex without the
`s` flag does not match. -/
def isLineTermCh (c : Char) : Bool :=
  c == '\n' || c == '\r' || c == ' ' || c == ' '

/-- ASCII alphanumeric, the class `[A-Za-z0-9]` written literally in the
source lookarounds and in the strip operations. -/
def isAlnumCh (c : Char) : Bool :=
  ('A' ≤ c && c ≤ 'Z') || ('a' ≤ c && c ≤ 'z') || ('0' ≤ c && c ≤ '9')

/-- JavaScript word character `\w` = `[A-Za-z0-9_]`, which is what the
`\b` assertion is defined from. -/
def isWordCh (c : Char) : Bool :=
  isAlnumCh c || c == '_'

def isDigitCh (c : Char) : Bool :=
  '0' ≤ c && c ≤ '9'

/-- ASCII lowercasing of a character; models `toLowerCase` and the `i`
regex flag on the ASCII/Devanagari strings this code works with
(Devanagari has no case and is left unchanged, as in JavaScript). -/
def lowerCh (c : Char) : Char :=
  if 'A' ≤ c && c ≤ 'Z' then Char.ofNat (c.toNat + 32) else c

def isWordOpt : Option Char → Bool
  | none => false
  | some c => isWordCh c

/-- Word-boundary assertion `\b` between an optional previous character
and an optional next character. -/
def wordBoundaryB (a b : Option Char) : Bool :=
  isWordOpt a != isWordOpt b

/-! ### String helpers -/

/-- Lowercase every character (models `String.prototype.toLowerCase`). -/
def lowerStr (s : String) : String :=
  ⟨s.data.map lowerCh⟩

def collapseAux (prevWs : Bool) : List Char → List Char
  | [] => []
  | c :: cs =>
      if isJsWs c then
        if prevWs then collapseAux true cs else ' ' :: collapseAux true cs
      else c :: collapseAux false cs

/-- Normalizer: `(s || "").replace(/\s+/g, " ").trim()`.  Runs of
whitespace collapse to a single space, then the (now single-space) ends
are trimmed. -/
def collapseWs (s : String) : String :=
  ⟨((collapseAux false s.data).dropWhile (· == ' ')).reverse.dropWhile (· == ' ') |>.reverse⟩

/-- Strip all whitespace: `text.replace(/\s+/g, "")`. -/
def stripWsL (l : List Char) : List Char :=
  l.filter (fun c => !isJsWs c)

/-- Strip all non-alphanumerics: `x.replace(/[^A-Za-z0-9]/g, "")`. -/
def stripNonAlnumL (l : List Char) : List Char :=
  l.filter isAlnumCh

/-- Escaping of one character for `esc`: a single quote doubles,
everything else is unchanged. -/
def escCh (c : Char) : List Char :=
  if c == '\'' then [c, c] else [c]

def escL (l : List Char) : List Char :=
  l.flatMap escCh

/-- The helper `esc`: replaceAll of the single-quote character by a
doubled single quote, expressed per character (the pattern is a single
character, so replaceAll is exactly the character-wise doubling). -/
def esc (s : String) : String :=
  ⟨escL s.data⟩

/-- Decimal digits of a natural number, accumulator style. -/
def natDigitsAux : Nat → Nat → List Char → List Char
  | 0, _, acc => acc
  | fuel + 1, n, acc =>
      if n < 10 then Char.ofNat (48 + n) :: acc
      else natDigitsAux fuel (n / 10) (Char.ofNat (48 + n % 10) :: acc)

/-- Decimal representation of an integer; models the JavaScript
number-to-string coercion for the integral values this code
interpolates. -/
def intStr (n : Int) : String :=
  match n with
  | Int.ofNat m => ⟨natDigitsAux (m + 1) m []⟩
  | Int.negSucc m => ⟨'-' :: natDigitsAux (m + 2) (m + 1) []⟩

/-! ### JavaScript values

Year bounds travel through the pipeline untyped: the deterministic
parsers produce numbers, but the corrective-service parse passes the
decoded JSON through unvalidated, so a bound can be a number, a string,
or null/undefined.  `JVal` models exactly the cases that can reach the
template interpolation. -/

inductive JVal where
  | jnum : Int → JVal
  | jstr : String → JVal
  | jnull : JVal
  deriving DecidableEq, Repr

/-- JavaScript truthiness of a `JVal` (`0`, `""`, `null`/`undefined`
are falsy). -/
def truthyJ : JVal → Bool
  | JVal.jnum n => n != 0
  | JVal.jstr s => !(s == "")
  | JVal.jnull => false

/-- Template-literal interpolation of a `JVal`
(`undefined` prints as the string undefined). -/
def interpJ : JVal → String
  | JVal.jnum n => intStr n
  | JVal.jstr s => s
  | JVal.jnull => "undefined"

/-- An `Option Nat` year (result of a MAX(year) query) as the `JVal`
assigned by `parsed.years = { y1: latest, y2: latest }`. -/
def optJ : Option Nat → JVal
  | some n => JVal.jnum n
  | none => JVal.jnull

/-! ### A matcher for the word/whitespace regex patterns

The place matchers, the state-synonym test and the keyword cascades all
use regexes built from three constructs only: case-insensitive literal
characters, `\s+`, and the `\b` assertion.  `Tok` is that pattern
language and `matchToksF` the (backtracking) matcher; the fuel argument
makes the definition structurally recursive, and every call site passes
fuel bounded below by pattern length + text length + 1, which the
recursion (each step shrinks pattern or text) never exhausts. -/

inductive Tok where
  | wb : Tok
  | ws1 : Tok
  | lit : Char → Tok
  deriving DecidableEq, Repr

def matchToksF : Nat → List Tok → Option Char → List Char → Bool
  | 0, _, _, _ => false
  | _ + 1, [], _, _ => true
  | fuel + 1, Tok.wb :: ps, prev, l =>
      wordBoundaryB prev l.head? && matchToksF fuel ps prev l
  | _ + 1, Tok.lit _ :: _, _, [] => false
  | fuel + 1, Tok.lit c :: ps, _, x :: xs =>
      lowerCh x == c && matchToksF fuel ps (some x) xs
  | _ + 1, Tok.ws1 :: _, _, [] => false
  | fuel + 1, Tok.ws1 :: ps, _, x :: xs =>
      isJsWs x && (matchToksF fuel ps (some x) xs ||
                   matchToksF fuel (Tok.ws1 :: ps) (some x) xs)

def matchToks (p : List Tok) (prev : Option Char) (l : List Char) : Bool :=
  matchToksF (p.length + l.length + 1) p prev l

/-- Unanchored search: does the token pattern match at some position of
the text (with correct look-behind character for `\b`)? -/
def searchToks (p : List Tok) : Option Char → List Char → Bool
  | prev, [] => matchToks p prev []
  | prev, x :: xs => matchToks p prev (x :: xs) || searchToks p (some x) xs

/-- Compile a cleaned name into pattern tokens: alphanumeric characters
become case-insensitive literals, every maximal run of other characters
becomes one `\s+` (this is `cleaned.replace(/[^A-Za-z0-9]+/g, "\\s+")`). -/
def nameToksAux (prevNonAl : Bool) : List Char → List Tok
  | [] => []
  | c :: cs =>
      if isAlnumCh c then Tok.lit (lowerCh c) :: nameToksAux false cs
      else if prevNonAl then nameToksAux true cs
      else Tok.ws1 :: nameToksAux true cs

def nameToks (l : List Char) : List Tok :=
  nameToksAux false l

/-- Case-insensitive literal prefix test (needle given lowercase). -/
def ciStarts : List Char → List Char → Bool
  | [], _ => true
  | _ :: _, [] => false
  | n :: ns, h :: hs => lowerCh h == n && ciStarts ns hs

/-- The no-space matcher
`(?<![A-Za-z0-9])NAME(?![A-Za-z0-9])` (case-insensitive), searched in
already-whitespace-stripped text; `needle` is given lowercase. -/
def nsAtHere (needle : List Char) (prev : Option Char) (l : List Char) : Bool :=
  (match prev with
   | none => true
   | some c => !isAlnumCh c) &&
  ciStarts needle l &&
  (match (l.drop needle.length).head? with
   | none => true
   | some c => !isAlnumCh c)

def nsSearch (needle : List Char) : Option Char → List Char → Bool
  | prev, [] => nsAtHere needle prev []
  | prev, x :: xs => nsAtHere needle prev (x :: xs) || nsSearch needle (some x) xs

/-- Trim as in `String(name).trim()` (whitespace from both ends). -/
def trimL (l : List Char) : List Char :=
  (l.dropWhile isJsWs).reverse.dropWhile isJsWs |>.reverse

/-- The pair of matchers built by `nameRegex`, combined as `containsName`
uses them: names with fewer than 4 alphanumerics never match; otherwise
the whole-word spaced matcher is tried on the text, then the no-space
matcher on the whitespace-stripped text. -/
def containsName (text : String) (name : String) : Bool :=
  let stripped := stripNonAlnumL name.data
  if stripped.length < 4 then false
  else
    let cleaned := trimL name.data
    searchToks (Tok.wb :: (nameToks cleaned ++ [Tok.wb])) none text.data ||
    nsSearch (stripped.map lowerCh) none (stripWsL text.data)

/-! ### Temporal extraction -/

/-- Numeric value of a two-digit-prefixed year match: the four matched
characters as a number. -/
def year4 (c1 c2 c3 c4 : Char) : Nat :=
  (c1.toNat - 48) * 1000 + (c2.toNat - 48) * 100 + (c3.toNat - 48) * 10 + (c4.toNat - 48)

/-- Does `(19|20)\d{2}` match at the front of the list? -/
def year4At : List Char → Option (Nat × List Char)
  | c1 :: c2 :: c3 :: c4 :: rest =>
      if ((c1 == '1' && c2 == '9') || (c1 == '2' && c2 == '0')) &&
         isDigitCh c3 && isDigitCh c4 then
        some (year4 c1 c2 c3 c4, rest)
      else none
  | _ => none

/-- All matches of `/(19|20)\d{2}/g`: the left-to-right, non-overlapping
scan a global JavaScript regex performs (a match consumes its four
characters; on failure the scan advances one character). -/
def yearScanF : Nat → List Char → List Nat
  | 0, _ => []
  | _ + 1, [] => []
  | fuel + 1, c :: cs =>
      match year4At (c :: cs) with
      | some (y, rest) => y :: yearScanF fuel rest
      | none => yearScanF fuel cs

def yearScan (l : List Char) : List Nat :=
  yearScanF l.length l

/-- Attempt the range pattern
`/(19|20)\d{2}\s*(?:-|to|–)\s*(19|20)\d{2}/i` at the current position.
The separator alternatives share no first character with `\s`, so the
greedy `\s*` never needs backtracking.  The source then splits the
matched text on the separator and `parseInt`s the two trimmed parts,
which recovers exactly the two matched year values. -/
def rangeAt (l : List Char) : Option (Nat × Nat) :=
  match year4At l with
  | none => none
  | some (a, rest) =>
      let rest2 := rest.dropWhile isJsWs
      let sep : Option (List Char) :=
        match rest2 with
        | '-' :: r => some r
        | '–' :: r => some r
        | t :: o :: r => if lowerCh t == 't' && lowerCh o == 'o' then some r else none
        | _ => none
      match sep with
      | none => none
      | some rest3 =>
          match year4At (rest3.dropWhile isJsWs) with
          | none => none
          | some (b, _) => some (a, b)

/-- Leftmost match of the range pattern. -/
def rangeFind : List Char → Option (Nat × Nat)
  | [] => none
  | c :: cs =>
      match rangeAt (c :: cs) with
      | some ab => some ab
      | none => rangeFind cs

/-- Year pair as carried in `parsed.years` (fields may be absent). -/
structure Years where
  y1 : JVal
  y2 : JVal
  deriving DecidableEq, Repr

def noYears : Years := ⟨JVal.jnull, JVal.jnull⟩

/-- List minimum via fold, as `Math.min(...ys)` computes it. -/
def listMin : Nat → List Nat → Nat
  | a, [] => a
  | a, x :: xs => listMin (min a x) xs

def listMax : Nat → List Nat → Nat
  | a, [] => a
  | a, x :: xs => listMax (max a x) xs

/-- Absolute temporal extraction `parseYearsAbsolute`. -/
def parseYearsAbsolute (t : String) : Years :=
  match rangeFind t.data with
  | some (a, b) => ⟨JVal.jnum (min a b : Nat), JVal.jnum (max a b : Nat)⟩
  | none =>
      match yearScan t.data with
      | [] => noYears
      | [y] => ⟨JVal.jnum y, JVal.jnum y⟩
      | y :: ys => ⟨JVal.jnum (listMin y ys), JVal.jnum (listMax y ys)⟩

/-- The number-word table of `wordsToNum` (keys are the ten English
words and the ten numeric keys 1–10, which stringify to their decimal
forms). -/
def wordsToNum (w : String) : Option Nat :=
  if w == "one" || w == "1" then some 1
  else if w == "two" || w == "2" then some 2
  else if w == "three" || w == "3" then some 3
  else if w == "four" || w == "4" then some 4
  else if w == "five" || w == "5" then some 5
  else if w == "six" || w == "6" then some 6
  else if w == "seven" || w == "7" then some 7
  else if w == "eight" || w == "8" then some 8
  else if w == "nine" || w == "9" then some 9
  else if w == "ten" || w == "10" then some 10
  else none

/-- Keyword alternatives of the relative pattern. -/
def relKws : List (List Char) :=
  ["last".data, "past".data, "previous".data, "recent".data]

def numWords : List (List Char) :=
  ["one".data, "two".data, "three".data, "four".data, "five".data,
   "six".data, "seven".data, "eight".data, "nine".data, "ten".data]

def firstPrefixOf (alts : List (List Char)) (l : List Char) : Option (List Char) :=
  alts.find? (fun a => a.isPrefixOf l)

/-- Attempt
`\b(last|past|previous|recent)\s+(\d+|one|…|ten)\s+years?\b` at the
current position of the (already lowercased) text and return the second
capture.  The keyword alternatives are mutually prefix-free, `\d+` is
followed by a mandatory `\s+` so its greedy match never shrinks, and for
`s?` both alternatives are tried as the engine would. -/
def relAt (prev : Option Char) (l : List Char) : Option (List Char) :=
  if !wordBoundaryB prev l.head? then none
  else
    match firstPrefixOf relKws l with
    | none => none
    | some kw =>
        let r1 := l.drop kw.length
        match r1 with
        | [] => none
        | c :: _ =>
            if !isJsWs c then none
            else
              let r2 := r1.dropWhile isJsWs
              let tokAndRest : Option (List Char × List Char) :=
                match r2 with
                | [] => none
                | d :: _ =>
                    if isDigitCh d then
                      some (r2.takeWhile isDigitCh, r2.dropWhile isDigitCh)
                    else
                      match firstPrefixOf numWords r2 with
                      | none => none
                      | some w => some (w, r2.drop w.length)
              match tokAndRest with
              | none => none
              | some (tok, r3) =>
                  match r3 with
                  | [] => none
                  | c2 :: _ =>
                      if !isJsWs c2 then none
                      else
                        let r4 := r3.dropWhile isJsWs
                        if !("year".data.isPrefixOf r4) then none
                        else
                          let r5 := r4.drop 4
                          match r5 with
                          | 's' :: r6 =>
                              if wordBoundaryB (some 's') r6.head? then some tok
                              else none
                          | _ =>
                              if wordBoundaryB (some 'r') r5.head? then some tok
                              else none

/-- Leftmost match of the relative pattern (second capture). -/
def relFind : Option Char → List Char → Option (List Char)
  | prev, [] => relAt prev []
  | prev, x :: xs =>
      match relAt prev (x :: xs) with
      | some tok => some tok
      | none => relFind (some x) xs

/-- Relative temporal extraction `parseYearsRelative`: lowercase the
text, match the relative pattern, convert the captured count; null when
there is no match, no (truthy) anchor year, or the captured token is not
in the 1–10 table. -/
def parseYearsRelative (t : String) (latestYear : Option Nat) : Option Years :=
  let anchorOk := match latestYear with
    | some y => y != 0
    | none => false
  match relFind none (lowerStr t).data with
  | none => none
  | some tok =>
      if !anchorOk then none
      else
        match wordsToNum ⟨tok⟩ with
        | none => none
        | some n =>
            match latestYear with
            | none => none
            | some y2 => some ⟨JVal.jnum ((y2 : Int) - (n - 1 : Nat)), JVal.jnum (y2 : Int)⟩

/-! ### Intent and category classification -/

/-- Word-boundary keyword test `\b(a1|a2|…)\b` for a list of (lowercase)
literal alternatives, searched in the given text. -/
def wbAltTest (alts : List String) (l : List Char) : Bool :=
  alts.any (fun a =>
    searchToks (Tok.wb :: (a.data.map Tok.lit ++ [Tok.wb])) none l)

/-- The COMPARE rule `/(^|\b)(vs|compare|के मुकाबले)(\b|$)/`: at some
position that is the start of input or a word boundary, one alternative
matches and is followed by a word boundary or the end of input. -/
def cmpAtHere (alt : List Char) (prev : Option Char) (l : List Char) : Bool :=
  (prev.isNone || wordBoundaryB prev l.head?) &&
  alt.isPrefixOf l &&
  (match alt.getLast? with
   | none => true
   | some lastc =>
       let rest := l.drop alt.length
       rest.isEmpty || wordBoundaryB (some lastc) rest.head?)

def cmpSearch (alt : List Char) : Option Char → List Char → Bool
  | prev, [] => cmpAtHere alt prev []
  | prev, x :: xs => cmpAtHere alt prev (x :: xs) || cmpSearch alt (some x) xs

def cmpTest (l : List Char) : Bool :=
  ["vs".data, "compare".data, "के मुकाबले".data].any
    (fun a => cmpSearch a none l)

/-- Intent classifier `intentOf`: first-match-wins cascade over the
lowercased text.  The `trends?` alternative is expanded into its two
concrete forms. -/
def intentOf (t : String) : String :=
  let s := (lowerStr t).data
  if cmpTest s then "COMPARE"
  else if wbAltTest ["since", "between", "trend", "from", "to", "से", "तक",
                     "trend of", "trends", "change"] s then "TREND"
  else if wbAltTest ["over", "critical", "semi", "safe", "अति", "गंभीर", "सुरक्षित"] s &&
          wbAltTest ["list", "show", "दिखाओ"] s then "LIST"
  else "DATA"

/-- Substring test, `String.prototype.includes`. -/
def startsL : List Char → List Char → Bool
  | [], _ => true
  | _ :: _, [] => false
  | n :: ns, h :: hs => n == h && startsL ns hs

def listHas (needle : List Char) : List Char → Bool
  | [] => startsL needle []
  | x :: xs => startsL needle (x :: xs) || listHas needle xs

def strHas (hay needle : String) : Bool :=
  listHas needle.data hay.data

/-- Category triggers, per tier. -/
def overTrig (s : String) : Bool :=
  strHas s "over-exploited" || strHas s "overexploited" || strHas s "अति"

def critTrig (s : String) : Bool :=
  strHas s "critical" || strHas s "गंभीर"

def semiTrig (s : String) : Bool :=
  strHas s "semi" || strHas s "अर्ध"

def safeTrig (s : String) : Bool :=
  strHas s "safe" || strHas s "सुरक्षित"

/-- Category extractor (the IIFE in the /api/answer deterministic
parse): four ordered `includes` tiers over the lowercased question. -/
def categoryOf (question : String) : Option String :=
  let s := lowerStr question
  if overTrig s then some "Over-Exploited"
  else if critTrig s then some "Critical"
  else if semiTrig s then some "Semi-Critical"
  else if safeTrig s then some "Safe"
  else none

/-! ### Data model and store -/

/-- One row of the fact table `gw_assessment_core`, restricted to the
columns the resolution pipeline itself reads (state, district, year);
the measurement columns are only ever copied through, never branched
on. -/
structure Row where
  state : String
  district : String
  year : Nat
  deriving DecidableEq, Repr

/-- The store is the fact table contents. -/
abbrev Store := List Row

/-- Geographic scope; `level` is one of the strings the code and the
corrective service use (state, district, unknown, national), and absent
state/district fields are the empty string (on which `esc` and the
probes behave as on the absent JavaScript value). -/
structure Place where
  level : String
  state : String
  district : String
  deriving DecidableEq, Repr

/-- A structured query as carried through /api/answer. -/
structure Parsed where
  intent : String
  years : Years
  place : Place
  category : Option String
  engine : String
  deriving DecidableEq, Repr

/-- JavaScript truthiness of the optional category string. -/
def categoryTruthy : Option String → Bool
  | some s => !(s == "")
  | none => false

def dedupKeep {α : Type} [DecidableEq α] (l : List α) : List α :=
  l.foldl (fun acc x => if acc.contains x then acc else acc ++ [x]) []

/-- Query `SELECT DISTINCT state,district FROM gw_assessment_core` in
scan order. -/
def distinctPairs (store : Store) : List (String × String) :=
  dedupKeep (store.map (fun r => (r.state, r.district)))

/-- Query `SELECT DISTINCT state FROM gw_assessment_core` in scan order. -/
def distinctStates (store : Store) : List String :=
  dedupKeep (store.map (fun r => r.state))

/-- Aggregate `SELECT MAX(year)` over a list of rows (NULL on empty input). -/
def maxYearOf (rows : List Row) : Option Nat :=
  rows.foldl (fun acc r =>
    match acc with
    | none => some r.year
    | some m => some (max m r.year)) none

/-- Helper `latestYearForState`: a falsy (absent/empty) state gives the global
maximum year, otherwise the maximum year of that state. -/
def latestYearForState (store : Store) (state : String) : Option Nat :=
  if state == "" then maxYearOf store
  else maxYearOf (store.filter (fun r => r.state == state))

/-- Existence probe `SELECT 1 … WHERE state=? LIMIT 1`. -/
def stateExists (store : Store) (s : String) : Bool :=
  store.any (fun r => r.state == s)

/-- Existence probe `SELECT 1 … WHERE state=? AND district=? LIMIT 1`. -/
def districtExists (store : Store) (s d : String) : Bool :=
  store.any (fun r => r.state == s && r.district == d)

/-! ### Place resolution -/

/-- The fixed abbreviation table, in insertion order. -/
def stateSynonyms : List (String × String) :=
  [("TN", "TAMIL NADU"), ("TAMILNADU", "TAMIL NADU"), ("UP", "UTTAR PRADESH"),
   ("MP", "MADHYA PRADESH"), ("MH", "MAHARASHTRA"), ("TS", "TELANGANA"),
   ("AP", "ANDHRA PRADESH")]

/-- First synonym key whose `\bKEY\b` (case-insensitive) test fires on
the text. -/
def synFind (text : String) : Option String :=
  (stateSynonyms.find? (fun kv =>
    searchToks (Tok.wb :: (kv.1.data.map (fun c => Tok.lit (lowerCh c)) ++ [Tok.wb]))
      none text.data)).map (fun kv => kv.2)

/-- The longest-match fold over district pairs: keep the current best
unless a matching district is strictly longer. -/
def pickD (text : String) (best : Option (String × String)) (r : String × String) :
    Option (String × String) :=
  if containsName text r.2 then
    match best with
    | none => some r
    | some b => if r.2.length > b.2.length then some r else some b
  else best

def bestDistrict (store : Store) (text : String) : Option (String × String) :=
  (distinctPairs store).foldl (pickD text) none

def pickS (text : String) (best : Option String) (s : String) : Option String :=
  if containsName text s then
    match best with
    | none => some s
    | some b => if s.length > b.length then some s else some b
  else best

def bestState (store : Store) (text : String) : Option String :=
  (distinctStates store).foldl (pickS text) none

/-- The last-resort state matcher
`(?<![A-Za-z0-9])STRIPPEDSTATE(?![A-Za-z0-9])` (case-insensitive) over
the whitespace-stripped text; first state in scan order wins. -/
def nsState (store : Store) (textNoSpace : List Char) : Option String :=
  (distinctStates store).find? (fun s =>
    nsSearch ((stripWsL s.data).map lowerCh) none textNoSpace)

/-- PlaceResolver `resolvePlaceSmart`: synonym table, then district
longest match, then state longest match, then no-space state match,
else unknown. -/
def resolvePlaceSmart (store : Store) (question : String) : Place :=
  let text := collapseWs question
  let textNoSpace := stripWsL text.data
  match synFind text with
  | some st => ⟨"state", st, ""⟩
  | none =>
      match bestDistrict store text with
      | some (st, d) => ⟨"district", st, d⟩
      | none =>
          match bestState store text with
          | some st => ⟨"state", st, ""⟩
          | none =>
              match nsState store textNoSpace with
              | some st => ⟨"state", st, ""⟩
              | none => ⟨"unknown", "", ""⟩

/-! ### SQL construction -/

/-- The year clause `byYear` of `buildSQL`. -/
def byYearClause (years : Years) (latest : Option Nat) : String :=
  if truthyJ years.y1 && truthyJ years.y2 then
    "AND year BETWEEN " ++ interpJ years.y1 ++ " AND " ++ interpJ years.y2
  else
    "AND year = " ++
      (match latest with
       | some y => intStr (y : Int)
       | none => "(SELECT MAX(year) FROM gw_assessment_core)")

/-- SQL builder `buildSQL`, with the template literals (including their
embedded newlines and indentation) reproduced exactly. -/
def buildSQL (store : Store) (parsed : Parsed) : String :=
  let latest := latestYearForState store parsed.place.state
  let byYear := byYearClause parsed.years latest
  if parsed.place.level == "district" then
    let w := "state='" ++ esc parsed.place.state ++ "' AND district='" ++
             esc parsed.place.district ++ "'"
    "SELECT year, recharge_mcm, extractable_mcm, extraction_mcm, stage_pct, category\n            FROM gw_assessment_core WHERE " ++
      w ++ " " ++ byYear ++ " ORDER BY year;"
  else if parsed.place.level == "state" then
    let w := "state='" ++ esc parsed.place.state ++ "'"
    if parsed.intent == "LIST" then
      "SELECT state, district, year, extractable_mcm, extraction_mcm, stage_pct, category\n              FROM gw_assessment_core WHERE " ++
        w ++ " " ++
        (if categoryTruthy parsed.category then
          "AND category='" ++ esc (parsed.category.getD "") ++ "'"
         else "") ++
        " " ++ byYear ++ "\n              ORDER BY stage_pct DESC LIMIT 500;"
    else
      "SELECT state, district, year, stage_pct, category\n            FROM gw_assessment_core WHERE " ++
        w ++ " " ++ byYear ++ "\n            ORDER BY stage_pct DESC LIMIT 500;"
  else
    let ly := latestYearForState store ""
    "SELECT state, district, year, stage_pct, category\n          FROM gw_assessment_core WHERE year=" ++
      (match ly with
       | some y => intStr (y : Int)
       | none => "undefined") ++
      " ORDER BY stage_pct DESC LIMIT 50;"

/-! ### The injection guard -/

/-- Scan the characters after a semicolon: true when a non-whitespace
character occurs before any line terminator (this is what `.*\S` can
reach, since the dot does not cross line terminators and `\S` is
non-whitespace). -/
def lineHasNonWs : List Char → Bool
  | [] => false
  | c :: cs =>
      if isLineTermCh c then false
      else if !isJsWs c then true
      else lineHasNonWs cs

/-- The guard test `/;.*\S/.test(sql)`. -/
def guardScan : List Char → Bool
  | [] => false
  | c :: cs => (c == ';' && lineHasNonWs cs) || guardScan cs

def guardFires (sql : String) : Bool :=
  guardScan sql.data

/-! ### The /api/answer orchestration

The two `geminiParse` network calls are modelled as oracle parameters
`g1` (the parse attempted when the place is unknown) and `g2` (the
parse attempted in the empty-result fallback); `none` stands for any
swallowed failure (timeout, non-success status, unparseable payload).
Execution of a *built* statement string is the abstract parameter
`runSQL`; the parameterized probe and MAX(year) statements are the
concrete store functions above.  The result records the final parsed
query, the rows of the last execution, and the trace of executed built
statements in order. -/

/-- Wholesale replacement merge `{ ...parsed, ...llm, engine:"gemini" }`
(a `geminiParse` result always carries all four payload fields, so all
four are overwritten). -/
def mergeLLM (_p llm : Parsed) : Parsed :=
  ⟨llm.intent, llm.years, llm.place, llm.category, "gemini"⟩

/-- The guarded relative-years assignment
`if (!parsed.years?.y1 && rel) parsed.years = rel`, shared verbatim by
its three call sites. -/
def applyRel (p : Parsed) (rel : Option Years) : Parsed :=
  if truthyJ p.years.y1 then p
  else
    match rel with
    | some r => { p with years := r }
    | none => p

/-- Deterministic parse (step 1 of the route). -/
def detParse (store : Store) (q : String) : Parsed :=
  ⟨intentOf q, parseYearsAbsolute q, resolvePlaceSmart store q, categoryOf q,
   "deterministic"⟩

/-- Steps 1–3: deterministic parse, relative year handling, and the
unconfirmed corrective parse attempted when the place is unknown. -/
def stageParsed (store : Store) (geminiOn : Bool) (g1 : Option Parsed)
    (q : String) : Parsed :=
  let p0 := detParse store q
  let rel := parseYearsRelative q (latestYearForState store p0.place.state)
  let p1 := applyRel p0 rel
  if p1.place.level == "unknown" && geminiOn then
    match g1 with
    | some llm =>
        let pm := mergeLLM p1 llm
        applyRel pm (parseYearsRelative q (latestYearForState store pm.place.state))
    | none => p1
  else p1

/-- The corrective part of the empty-result fallback: consult the
service; accept a state/district place only after the existence probe
confirms it; on acceptance re-run the relative pass against the new
anchor, rebuild and re-execute.  Returns the (possibly) corrected
parsed query, the last statement and rows, and the statements this
stage executed. -/
def gemRecover (store : Store) (q : String) (geminiOn : Bool)
    (g2 : Option Parsed) (runSQL : String → List Row)
    (p : Parsed) (sql : String) (rows : List Row) :
    Parsed × String × List Row × List String :=
  if geminiOn then
    match g2 with
    | some llm =>
        if llm.place.level == "state" then
          if stateExists store llm.place.state then
            let pm := mergeLLM p llm
            let pm2 := applyRel pm
              (parseYearsRelative q (latestYearForState store pm.place.state))
            let s2 := buildSQL store pm2
            (pm2, s2, runSQL s2, [s2])
          else (p, sql, rows, [])
        else if llm.place.level == "district" then
          if districtExists store llm.place.state llm.place.district then
            let pm := mergeLLM p llm
            let pm2 := applyRel pm
              (parseYearsRelative q (latestYearForState store pm.place.state))
            let s2 := buildSQL store pm2
            (pm2, s2, runSQL s2, [s2])
          else (p, sql, rows, [])
        else (p, sql, rows, [])
    | none => (p, sql, rows, [])
  else (p, sql, rows, [])

/-- Result of a /api/answer request: an error message for the 400
responses, the final parsed query, the rows of the last execution, and
the trace of executed built statements. -/
structure AnsOut where
  err : Option String
  parsed : Parsed
  rows : List Row
  trace : List String
  deriving Repr

def dummyParsed : Parsed := ⟨"DATA", noYears, ⟨"unknown", "", ""⟩, none, "deterministic"⟩

/-- The /api/answer route. -/
def answer (store : Store) (runSQL : String → List Row) (geminiOn : Bool)
    (g1 g2 : Option Parsed) (body : String) : AnsOut :=
  let q := collapseWs body
  if q == "" then ⟨some "Missing text", dummyParsed, [], []⟩
  else
    let p2 := stageParsed store geminiOn g1 q
    let rel := parseYearsRelative q
      (latestYearForState store (detParse store q).place.state)
    let sql1 := buildSQL store p2
    if guardFires sql1 then ⟨some "Invalid SQL", p2, [], []⟩
    else
      let rows1 := runSQL sql1
      if rows1.isEmpty then
        let rec4 := gemRecover store q geminiOn g2 runSQL p2 sql1 rows1
        let p3 := rec4.1
        let rowsG := rec4.2.2.1
        let trG := rec4.2.2.2
        if rowsG.isEmpty && rel.isSome then
          let latest := latestYearForState store p3.place.state
          let p4 := { p3 with years := ⟨optJ latest, optJ latest⟩ }
          let sql4 := buildSQL store p4
          ⟨none, p4, runSQL sql4, sql1 :: (trG ++ [sql4])⟩
        else ⟨none, p3, rowsG, sql1 :: trG⟩
      else ⟨none, p2, rows1, [sql1]⟩

/-! ### Spec-side notions

The definitions in this section are not translations of the source;
they express the properties the specification claims (well-formed
single-quote escaping, standalone years, a statement terminator
followed by non-whitespace), to be compared against the behaviour of
the source translations above. -/

/-- Scanner state for reading a statement the way an SQL lexer reads
single-quoted literals: outside a literal, inside one (with the decoded
content so far), or inside one having just seen a quote (which either
doubles to an escaped quote or closes the literal). -/
inductive Mode where
  | out : Mode
  | ins : List Char → Mode
  | quo : List Char → Mode
  deriving DecidableEq, Repr

def scanStep : Mode × List (List Char) → Char → Mode × List (List Char)
  | (Mode.out, ls), c => if c == '\'' then (Mode.ins [], ls) else (Mode.out, ls)
  | (Mode.ins a, ls), c =>
      if c == '\'' then (Mode.quo a, ls) else (Mode.ins (a ++ [c]), ls)
  | (Mode.quo a, ls), c =>
      if c == '\'' then (Mode.ins (a ++ ['\'']), ls) else (Mode.out, ls ++ [a])

/-- Decode the single-quoted literals of a statement.  The result is
`some` of the decoded literal contents exactly when every quote inside
a literal is doubled and every literal is closed — i.e. when no quote
of an interpolated value escapes its literal. -/
def scanLitsL (l : List Char) : Option (List (List Char)) :=
  match l.foldl scanStep (Mode.out, []) with
  | (Mode.out, ls) => some ls
  | (Mode.ins _, _) => none
  | (Mode.quo a, ls) => some (ls ++ [a])

/-- Standalone years in the sense of the specification: an occurrence
of `(19|20)` plus two digits that is not embedded in a longer digit
run (neither neighbour is a digit).  Left-to-right scan, advancing past
an accepted occurrence. -/
def standaloneYearsF : Nat → Option Char → List Char → List Nat
  | 0, _, _ => []
  | _ + 1, _, [] => []
  | fuel + 1, prev, c1 :: cs =>
      match cs with
      | c2 :: c3 :: c4 :: rest =>
          if (((c1 == '1' && c2 == '9') || (c1 == '2' && c2 == '0')) &&
              isDigitCh c3 && isDigitCh c4) &&
             (match prev with | none => true | some p => !isDigitCh p) &&
             (match rest.head? with | none => true | some n => !isDigitCh n) then
            year4 c1 c2 c3 c4 :: standaloneYearsF fuel (some c4) rest
          else standaloneYearsF fuel (some c1) (c2 :: c3 :: c4 :: rest)
      | _ => []

def standaloneYears (t : String) : List Nat :=
  standaloneYearsF t.data.length none t.data

/-- A statement terminator followed by further non-whitespace content
anywhere later in the statement (the property the specification says
the guard rejects, with no restriction to a single line). -/
def termThenNonWs : List Char → Bool
  | [] => false
  | c :: cs => (c == ';' && cs.any (fun x => !isJsWs x)) || termThenNonWs cs

/-- Whether a list of characters is free of single quotes. -/
def noQuoteL (l : List Char) : Bool :=
  l.all (fun c => c != '\'')

/-- Whether both year bounds are numbers-or-absent (the shape the
StructuredQuery data model gives them). -/
def isNumOrNull : JVal → Bool
  | JVal.jstr _ => false
  | _ => true

def yearsNum (y : Years) : Bool :=
  isNumOrNull y.y1 && isNumOrNull y.y2

/-- Expected decoded literal contents of a built statement: the place
and category values that `buildSQL` interpolates for the given
structured query. -/
def expLits (p : Parsed) : List (List Char) :=
  if p.place.level == "district" then
    [p.place.state.data, p.place.district.data]
  else if p.place.level == "state" then
    if p.intent == "LIST" && categoryTruthy p.category then
      [p.place.state.data, (p.category.getD "").data]
    else [p.place.state.data]
  else []

/-! ### Lemmas about the literal scanner and escaping -/

lemma esc_data (s : String) : (esc s).data = escL s.data := rfl

lemma scanStep_out (ls : List (List Char)) (c : Char) :
    scanStep (Mode.out, ls) c =
      if c == '\'' then (Mode.ins [], ls) else (Mode.out, ls) := rfl

lemma scanStep_ins (a : List Char) (ls : List (List Char)) (c : Char) :
    scanStep (Mode.ins a, ls) c =
      if c == '\'' then (Mode.quo a, ls) else (Mode.ins (a ++ [c]), ls) := rfl

lemma scanStep_quo (a : List Char) (ls : List (List Char)) (c : Char) :
    scanStep (Mode.quo a, ls) c =
      if c == '\'' then (Mode.ins (a ++ ['\'']), ls) else (Mode.out, ls ++ [a]) := rfl

/-- Folding the scanner over escaped content keeps it inside the
literal and appends exactly the unescaped content. -/
lemma scan_esc (s : List Char) :
    ∀ (a : List Char) (ls : List (List Char)),
      (escL s).foldl scanStep (Mode.ins a, ls) = (Mode.ins (a ++ s), ls) := by
  induction s with
  | nil => intro a ls; simp [escL]
  | cons c cs ih =>
      intro a ls
      by_cases h : c = '\''
      · subst h
        have : escL ('\'' :: cs) = '\'' :: '\'' :: escL cs := by
          simp [escL, escCh]
        rw [this]
        simp only [List.foldl_cons, scanStep_ins, scanStep_quo, beq_self_eq_true,
          if_true, ih]
        simp
      · have : escL (c :: cs) = c :: escL cs := by
          simp [escL, escCh, h]
        rw [this]
        have hc : (c == '\'') = false := by simp [h]
        simp only [List.foldl_cons, scanStep_ins, hc, Bool.false_eq_true, if_false, ih]
        simp

/-- Folding the scanner from outside over quote-free content is the
identity. -/
lemma scan_noquote (t : List Char) (h : noQuoteL t = true) :
    ∀ ls : List (List Char), t.foldl scanStep (Mode.out, ls) = (Mode.out, ls) := by
  induction t with
  | nil => intro ls; rfl
  | cons c cs ih =>
      intro ls
      have hall := h
      rw [noQuoteL, List.all_cons, Bool.and_eq_true] at hall
      have hc : (c == '\'') = false := by simpa using hall.1
      have hcs : noQuoteL cs = true := hall.2
      simp only [List.foldl_cons, scanStep_out, hc, Bool.false_eq_true, if_false]
      exact ih hcs ls

/-- Crossing one whole quoted, escaped literal followed by a non-quote
character: the literal content is emitted and the scan continues
outside. -/
lemma scan_quoted (s : List Char) (ls : List (List Char)) (c : Char)
    (hc : (c == '\'') = false) (rest : List Char) :
    ('\'' :: (escL s ++ ('\'' :: c :: rest))).foldl scanStep (Mode.out, ls) =
      rest.foldl scanStep (Mode.out, ls ++ [s]) := by
  simp only [List.foldl_cons, scanStep_out, beq_self_eq_true, if_true,
    List.foldl_append, scan_esc, scanStep_ins, scanStep_quo, hc,
    Bool.false_eq_true, if_false, List.nil_append]

/-- Completing the scan at the end of quote-free trailing content. -/
lemma scanLits_end (t : List Char) (h : noQuoteL t = true) (ls : List (List Char)) :
    (match t.foldl scanStep (Mode.out, ls) with
       | (Mode.out, ls) => some ls
       | (Mode.ins _, _) => none
       | (Mode.quo a, ls) => some (ls ++ [a])) = some ls := by
  rw [scan_noquote t h ls]

/-- Digit characters produced by the decimal printer are not quotes. -/
lemma noQuote_digitChar (k : Nat) (hk : k < 10) :
    ((Char.ofNat (48 + k)) != '\'') = true := by
  interval_cases k <;> decide

lemma noQuote_natDigitsAux :
    ∀ (fuel n : Nat) (acc : List Char), noQuoteL acc = true →
      noQuoteL (natDigitsAux fuel n acc) = true := by
  intro fuel
  induction fuel with
  | zero => intro n acc h; exact h
  | succ f ih =>
      intro n acc h
      unfold natDigitsAux
      by_cases hn : n < 10
      · simp only [hn, if_true]
        unfold noQuoteL
        rw [List.all_cons]
        exact Bool.and_eq_true_iff.mpr ⟨noQuote_digitChar n hn, h⟩
      · simp only [hn, if_false]
        apply ih
        unfold noQuoteL
        rw [List.all_cons]
        exact Bool.and_eq_true_iff.mpr ⟨noQuote_digitChar (n % 10) (Nat.mod_lt n (by omega)), h⟩

lemma noQuote_intStr (n : Int) : noQuoteL (intStr n).data = true := by
  unfold intStr
  cases n with
  | ofNat m =>
      exact noQuote_natDigitsAux (m + 1) m [] rfl
  | negSucc m =>
      show noQuoteL ('-' :: natDigitsAux (m + 2) (m + 1) []) = true
      unfold noQuoteL
      rw [List.all_cons]
      exact Bool.and_eq_true_iff.mpr ⟨rfl, noQuote_natDigitsAux (m + 2) (m + 1) [] rfl⟩

lemma noQuoteL_append (a b : List Char) :
    noQuoteL (a ++ b) = (noQuoteL a && noQuoteL b) := List.all_append

lemma noQuote_interpJ (v : JVal) (h : isNumOrNull v = true) :
    noQuoteL (interpJ v).data = true := by
  cases v with
  | jnum n => exact noQuote_intStr n
  | jstr s => simp [isNumOrNull] at h
  | jnull => decide

/-- The year clause a numeric-or-absent year pair produces is free of
quotes. -/
lemma noQuote_byYear (y : Years) (latest : Option Nat) (h : yearsNum y = true) :
    noQuoteL (byYearClause y latest).data = true := by
  have h1 : isNumOrNull y.y1 = true := (Bool.and_eq_true_iff.mp h).1
  have h2 : isNumOrNull y.y2 = true := (Bool.and_eq_true_iff.mp h).2
  unfold byYearClause
  cases hb : (truthyJ y.y1 && truthyJ y.y2) with
  | true =>
      simp only [hb, if_true, String.data_append, noQuoteL_append,
        noQuote_interpJ y.y1 h1, noQuote_interpJ y.y2 h2]
      decide
  | false =>
      simp only [hb, Bool.false_eq_true, if_false, String.data_append, noQuoteL_append]
      cases latest with
      | some yv =>
          simp only [noQuote_intStr (yv : Int)]
          decide
      | none => decide

/-! ### Substring lemmas -/

lemma startsL_self (n : List Char) : ∀ b : List Char, startsL n (n ++ b) = true := by
  induction n with
  | nil => intro b; rfl
  | cons c cs ih =>
      intro b
      unfold startsL
      rw [List.cons_append]
      simp [ih b]

lemma listHas_front (n b : List Char) : listHas n (n ++ b) = true := by
  cases hn : n ++ b with
  | nil =>
      have : n = [] := by
        cases n with
        | nil => rfl
        | cons x xs => simp at hn
      subst this
      rfl
  | cons x xs =>
      unfold listHas
      rw [← hn, startsL_self n b]
      simp

lemma listHas_of_append (a n b : List Char) : listHas n (a ++ (n ++ b)) = true := by
  induction a with
  | nil => simpa using listHas_front n b
  | cons c cs ih =>
      rw [List.cons_append]
      unfold listHas
      rw [ih]
      simp

/-- A quote in the source string yields a doubled quote in the escaped
string. -/
lemma escL_doubles (s : List Char) (h : '\'' ∈ s) :
    listHas ['\'', '\''] (escL s) = true := by
  induction s with
  | nil => cases h
  | cons c cs ih =>
      by_cases hc : c = '\''
      · subst hc
        have : escL ('\'' :: cs) = '\'' :: '\'' :: escL cs := by simp [escL, escCh]
        rw [this]
        have := listHas_front ['\'', '\''] (escL cs)
        simpa using this
      · have hmem : '\'' ∈ cs := by
          cases List.mem_cons.mp h with
          | inl hh => exact absurd hh.symm hc
          | inr hh => exact hh
        have : escL (c :: cs) = c :: escL cs := by simp [escL, escCh, hc]
        rw [this]
        unfold listHas
        rw [ih hmem]
        simp

/-! ### Scanning the four shapes of built statement -/

lemma scanLits_buildSQL_district (store : Store) (p : Parsed)
    (h : (p.place.level == "district") = true)
    (hy : noQuoteL (byYearClause p.years (latestYearForState store p.place.state)).data = true) :
    scanLitsL (buildSQL store p).data = some [p.place.state.data, p.place.district.data] := by
  unfold buildSQL
  simp only [h, if_true]
  unfold scanLitsL
  simp only [String.data_append, esc_data, List.foldl_append]
  rw [show List.foldl scanStep (Mode.out, ([] : List (List Char)))
      ("SELECT year, recharge_mcm, extractable_mcm, extraction_mcm, stage_pct, category\n            FROM gw_assessment_core WHERE " : String).data = (Mode.out, []) from rfl]
  rw [show List.foldl scanStep (Mode.out, ([] : List (List Char))) ("state='" : String).data = (Mode.ins [], []) from rfl]
  rw [scan_esc]
  rw [show ∀ (a : List Char) (ls : List (List Char)),
      List.foldl scanStep (Mode.ins a, ls) ("' AND district='" : String).data = (Mode.ins [], ls ++ [a]) from fun _ _ => rfl]
  rw [scan_esc]
  rw [show ∀ (a : List Char) (ls : List (List Char)),
      List.foldl scanStep (Mode.ins a, ls) ("'" : String).data = (Mode.quo a, ls) from fun _ _ => rfl]
  rw [show ∀ (a : List Char) (ls : List (List Char)),
      List.foldl scanStep (Mode.quo a, ls) (" " : String).data = (Mode.out, ls ++ [a]) from fun _ _ => rfl]
  rw [scan_noquote _ hy]
  rw [scan_noquote _ (by decide : noQuoteL (" ORDER BY year;" : String).data = true)]
  simp

lemma scanLits_buildSQL_statePlain (store : Store) (p : Parsed)
    (hd : (p.place.level == "district") = false)
    (hs : (p.place.level == "state") = true)
    (hl : (p.intent == "LIST") = false)
    (hy : noQuoteL (byYearClause p.years (latestYearForState store p.place.state)).data = true) :
    scanLitsL (buildSQL store p).data = some [p.place.state.data] := by
  unfold buildSQL
  simp only [hd, hs, hl, Bool.false_eq_true, if_false, if_true]
  unfold scanLitsL
  simp only [String.data_append, esc_data, List.foldl_append]
  rw [show List.foldl scanStep (Mode.out, ([] : List (List Char)))
      ("SELECT state, district, year, stage_pct, category\n            FROM gw_assessment_core WHERE " : String).data = (Mode.out, []) from rfl]
  rw [show List.foldl scanStep (Mode.out, ([] : List (List Char))) ("state='" : String).data = (Mode.ins [], []) from rfl]
  rw [scan_esc]
  rw [show ∀ (a : List Char) (ls : List (List Char)),
      List.foldl scanStep (Mode.ins a, ls) ("'" : String).data = (Mode.quo a, ls) from fun _ _ => rfl]
  rw [show ∀ (a : List Char) (ls : List (List Char)),
      List.foldl scanStep (Mode.quo a, ls) (" " : String).data = (Mode.out, ls ++ [a]) from fun _ _ => rfl]
  rw [scan_noquote _ hy]
  rw [scan_noquote _ (by decide :
      noQuoteL ("\n            ORDER BY stage_pct DESC LIMIT 500;" : String).data = true)]
  simp

lemma scanLits_buildSQL_stateListCat (store : Store) (p : Parsed)
    (hd : (p.place.level == "district") = false)
    (hs : (p.place.level == "state") = true)
    (hl : (p.intent == "LIST") = true)
    (hc : categoryTruthy p.category = true)
    (hy : noQuoteL (byYearClause p.years (latestYearForState store p.place.state)).data = true) :
    scanLitsL (buildSQL store p).data =
      some [p.place.state.data, (p.category.getD "").data] := by
  unfold buildSQL
  simp only [hd, hs, hl, hc, Bool.false_eq_true, if_false, if_true]
  unfold scanLitsL
  simp only [String.data_append, esc_data, List.foldl_append]
  rw [show List.foldl scanStep (Mode.out, ([] : List (List Char)))
      ("SELECT state, district, year, extractable_mcm, extraction_mcm, stage_pct, category\n              FROM gw_assessment_core WHERE " : String).data = (Mode.out, []) from rfl]
  rw [show List.foldl scanStep (Mode.out, ([] : List (List Char))) ("state='" : String).data = (Mode.ins [], []) from rfl]
  rw [scan_esc]
  rw [show ∀ (a : List Char) (ls : List (List Char)),
      List.foldl scanStep (Mode.ins a, ls) ("'" : String).data = (Mode.quo a, ls) from fun _ _ => rfl]
  rw [show ∀ (a : List Char) (ls : List (List Char)),
      List.foldl scanStep (Mode.quo a, ls) (" " : String).data = (Mode.out, ls ++ [a]) from fun _ _ => rfl]
  rw [show ∀ ls : List (List Char),
      List.foldl scanStep (Mode.out, ls) ("AND category='" : String).data = (Mode.ins [], ls) from fun _ => rfl]
  rw [scan_esc]
  rw [show ∀ (a : List Char) (ls : List (List Char)),
      List.foldl scanStep (Mode.ins a, ls) ("'" : String).data = (Mode.quo a, ls) from fun _ _ => rfl]
  rw [show ∀ (a : List Char) (ls : List (List Char)),
      List.foldl scanStep (Mode.quo a, ls) (" " : String).data = (Mode.out, ls ++ [a]) from fun _ _ => rfl]
  rw [scan_noquote _ hy]
  rw [scan_noquote _ (by decide :
      noQuoteL ("\n              ORDER BY stage_pct DESC LIMIT 500;" : String).data = true)]
  simp

lemma scanLits_buildSQL_stateListNoCat (store : Store) (p : Parsed)
    (hd : (p.place.level == "district") = false)
    (hs : (p.place.level == "state") = true)
    (hl : (p.intent == "LIST") = true)
    (hc : categoryTruthy p.category = false)
    (hy : noQuoteL (byYearClause p.years (latestYearForState store p.place.state)).data = true) :
    scanLitsL (buildSQL store p).data = some [p.place.state.data] := by
  unfold buildSQL
  simp only [hd, hs, hl, hc, Bool.false_eq_true, if_false, if_true]
  unfold scanLitsL
  simp only [String.data_append, esc_data, List.foldl_append]
  rw [show List.foldl scanStep (Mode.out, ([] : List (List Char)))
      ("SELECT state, district, year, extractable_mcm, extraction_mcm, stage_pct, category\n              FROM gw_assessment_core WHERE " : String).data = (Mode.out, []) from rfl]
  rw [show List.foldl scanStep (Mode.out, ([] : List (List Char))) ("state='" : String).data = (Mode.ins [], []) from rfl]
  rw [scan_esc]
  rw [show ∀ (a : List Char) (ls : List (List Char)),
      List.foldl scanStep (Mode.ins a, ls) ("'" : String).data = (Mode.quo a, ls) from fun _ _ => rfl]
  rw [show ∀ (a : List Char) (ls : List (List Char)),
      List.foldl scanStep (Mode.quo a, ls) (" " : String).data = (Mode.out, ls ++ [a]) from fun _ _ => rfl]
  rw [show ∀ ls : List (List Char),
      List.foldl scanStep (Mode.out, ls) ("" : String).data = (Mode.out, ls) from fun _ => rfl]
  rw [show ∀ ls : List (List Char),
      List.foldl scanStep (Mode.out, ls) (" " : String).data = (Mode.out, ls) from fun _ => rfl]
  rw [scan_noquote _ hy]
  rw [scan_noquote _ (by decide :
      noQuoteL ("\n              ORDER BY stage_pct DESC LIMIT 500;" : String).data = true)]
  simp

lemma scanLits_buildSQL_national (store : Store) (p : Parsed)
    (hd : (p.place.level == "district") = false)
    (hs : (p.place.level == "state") = false) :
    scanLitsL (buildSQL store p).data = some [] := by
  unfold buildSQL
  simp only [hd, hs, Bool.false_eq_true, if_false]
  unfold scanLitsL
  simp only [String.data_append, List.foldl_append]
  rw [show List.foldl scanStep (Mode.out, ([] : List (List Char)))
      ("SELECT state, district, year, stage_pct, category\n          FROM gw_assessment_core WHERE year=" : String).data = (Mode.out, []) from rfl]
  cases hly : latestYearForState store "" with
  | some yv =>
      simp only [hly]
      rw [scan_noquote _ (noQuote_intStr (yv : Int))]
      rw [scan_noquote _ (by decide :
          noQuoteL (" ORDER BY stage_pct DESC LIMIT 50;" : String).data = true)]
  | none =>
      simp only [hly]
      rw [scan_noquote _ (by decide : noQuoteL ("undefined" : String).data = true)]
      rw [scan_noquote _ (by decide :
          noQuoteL (" ORDER BY stage_pct DESC LIMIT 50;" : String).data = true)]

/-! ### Claim C1 -/

/-- C1.  For every structured query (with year bounds of the numeric or
absent shape the StructuredQuery data model gives them), decoding the
single-quoted literals of the statement built by `buildSQL` succeeds
and yields exactly the interpolated place and category values — i.e.
every embedded quote of a place or category literal is doubled and no
quote escapes its literal; and for any value containing a quote
character, the escaped form contains that quote doubled. -/
theorem C1_literal_escaping :
    (∀ (store : Store) (p : Parsed), yearsNum p.years = true →
      scanLitsL (buildSQL store p).data = some (expLits p)) ∧
    (∀ s : String, '\'' ∈ s.data → listHas ['\'', '\''] (esc s).data = true) := by
  constructor
  · intro store p hy
    have hby := noQuote_byYear p.years (latestYearForState store p.place.state) hy
    unfold expLits
    cases hd : (p.place.level == "district") with
    | true =>
        simp only [hd, if_true]
        exact scanLits_buildSQL_district store p hd hby
    | false =>
        cases hs : (p.place.level == "state") with
        | true =>
            cases hl : (p.intent == "LIST") with
            | true =>
                cases hc : categoryTruthy p.category with
                | true =>
                    simp only [hd, hs, hl, hc, Bool.false_eq_true, if_false, if_true,
                      Bool.true_and]
                    exact scanLits_buildSQL_stateListCat store p hd hs hl hc hby
                | false =>
                    simp only [hd, hs, hl, hc, Bool.false_eq_true, if_false, if_true,
                      Bool.true_and]
                    exact scanLits_buildSQL_stateListNoCat store p hd hs hl hc hby
            | false =>
                simp only [hd, hs, hl, Bool.false_eq_true, if_false, if_true,
                  Bool.false_and]
                exact scanLits_buildSQL_statePlain store p hd hs hl hby
        | false =>
            simp only [hd, hs, Bool.false_eq_true, if_false]
            exact scanLits_buildSQL_national store p hd hs
  · intro s h
    exact escL_doubles s.data h

def storeC1 : Store := [⟨"Gujarat", "Mehsana", 2020⟩]

def parsedC1 : Parsed :=
  ⟨"DATA", ⟨JVal.jnum 2019, JVal.jnum 2020⟩, ⟨"district", "Guj'rat", "Meh'sana"⟩,
   none, "deterministic"⟩

/-- Witness for C1 at a concrete structured query whose place contains
quote characters. -/
theorem C1_literal_escaping_witness :
    scanLitsL (buildSQL storeC1 parsedC1).data = some (expLits parsedC1) ∧
    listHas ['\'', '\''] (esc "Guj'rat").data = true :=
  ⟨C1_literal_escaping.1 storeC1 parsedC1 (by decide),
   C1_literal_escaping.2 "Guj'rat" (by decide)⟩

lemma listHas_append_left (n l : List Char) (h : listHas n l = true) :
    ∀ a : List Char, listHas n (a ++ l) = true := by
  intro a
  induction a with
  | nil => simpa using h
  | cons c cs ih =>
      rw [List.cons_append]
      unfold listHas
      rw [ih]
      simp

/-- The built statement embeds the year clause verbatim at district and
state levels. -/
lemma buildSQL_has_byYear (store : Store) (p : Parsed)
    (h : (p.place.level == "district" || p.place.level == "state") = true) :
    listHas (byYearClause p.years (latestYearForState store p.place.state)).data
      (buildSQL store p).data = true := by
  unfold buildSQL
  cases hd : (p.place.level == "district") with
  | true =>
      simp only [hd, if_true, String.data_append, List.append_assoc]
      apply listHas_append_left
      apply listHas_append_left
      apply listHas_append_left
      apply listHas_append_left
      apply listHas_append_left
      apply listHas_append_left
      apply listHas_append_left
      exact listHas_front _ _
  | false =>
      have hs : (p.place.level == "state") = true := by
        rw [hd] at h; simpa using h
      simp only [hd, hs, Bool.false_eq_true, if_false, if_true]
      cases hl : (p.intent == "LIST") with
      | true =>
          simp only [hl, if_true, String.data_append, List.append_assoc]
          apply listHas_append_left
          apply listHas_append_left
          apply listHas_append_left
          apply listHas_append_left
          apply listHas_append_left
          apply listHas_append_left
          apply listHas_append_left
          exact listHas_front _ _
      | false =>
          simp only [hl, Bool.false_eq_true, if_false, String.data_append,
            List.append_assoc]
          apply listHas_append_left
          apply listHas_append_left
          apply listHas_append_left
          apply listHas_append_left
          apply listHas_append_left
          exact listHas_front _ _

/-! ### Claim C10 -/

/-- C10.  Year bounds are interpolated into the built statement
verbatim: a string-valued bound (as the corrective service can supply)
appears in the statement exactly as given, with no escaping and no
numeric validation — in contrast to the place and category literals,
which pass through `esc`. -/
theorem C10_years_verbatim :
    (∀ s : String, interpJ (JVal.jstr s) = s) ∧
    (∀ (store : Store) (p : Parsed) (s t : String),
      (p.place.level == "district" || p.place.level == "state") = true →
      p.years = ⟨JVal.jstr s, JVal.jstr t⟩ →
      (s == "") = false → (t == "") = false →
      listHas ("AND year BETWEEN " ++ s ++ " AND " ++ t).data
        (buildSQL store p).data = true) := by
  constructor
  · intro s; rfl
  · intro store p s t hlvl hy hs ht
    have hclause :
        byYearClause p.years (latestYearForState store p.place.state) =
          "AND year BETWEEN " ++ s ++ " AND " ++ t := by
      rw [hy]
      unfold byYearClause truthyJ
      simp only [hs, ht]
      rfl
    have := buildSQL_has_byYear store p hlvl
    rw [hclause] at this
    exact this

def storeC10 : Store := [⟨"Gujarat", "Mehsana", 2020⟩]

def parsedC10 : Parsed :=
  ⟨"DATA", ⟨JVal.jstr "2019", JVal.jstr "20'19; ZAP"⟩,
   ⟨"district", "Gujarat", "Mehsana"⟩, none, "gemini"⟩

/-- Witness for C10: a year bound containing a quote and a semicolon is
embedded verbatim (unescaped) in the built statement. -/
theorem C10_years_verbatim_witness :
    interpJ (JVal.jstr "20'19; ZAP") = "20'19; ZAP" ∧
    listHas ("AND year BETWEEN " ++ "2019" ++ " AND " ++ "20'19; ZAP").data
      (buildSQL storeC10 parsedC10).data = true :=
  ⟨C10_years_verbatim.1 "20'19; ZAP",
   C10_years_verbatim.2 storeC10 parsedC10 "2019" "20'19; ZAP"
     (by decide) rfl (by decide) (by decide)⟩

/-! ### Claim C6 -/

/-- C6 (amended).  The year scope of a built statement: at district and
state level the statement embeds the year clause, which is
`AND year BETWEEN y1 AND y2` when both bounds are given (truthy) and
`AND year = latest-for-the-place-state` otherwise (with a global
MAX(year) subselect when no latest year exists); a district statement
is ordered by year ascending; at national/unknown level the statement
is always the fixed globally-latest-year query, which ignores any given
year bounds. -/
theorem C6_year_scope :
    (∀ (store : Store) (p : Parsed),
      (p.place.level == "district" || p.place.level == "state") = true →
      listHas (byYearClause p.years (latestYearForState store p.place.state)).data
        (buildSQL store p).data = true) ∧
    (∀ (y : Years) (latest : Option Nat), (truthyJ y.y1 && truthyJ y.y2) = true →
      byYearClause y latest =
        "AND year BETWEEN " ++ interpJ y.y1 ++ " AND " ++ interpJ y.y2) ∧
    (∀ (y : Years) (latest : Option Nat), (truthyJ y.y1 && truthyJ y.y2) = false →
      byYearClause y latest =
        "AND year = " ++
          (match latest with
           | some yv => intStr (yv : Int)
           | none => "(SELECT MAX(year) FROM gw_assessment_core)")) ∧
    (∀ (store : Store) (p : Parsed), (p.place.level == "district") = true →
      ∃ pre : List Char,
        (buildSQL store p).data = pre ++ (" ORDER BY year;" : String).data) ∧
    (∀ (store : Store) (p : Parsed),
      (p.place.level == "district") = false → (p.place.level == "state") = false →
      buildSQL store p =
        "SELECT state, district, year, stage_pct, category\n          FROM gw_assessment_core WHERE year=" ++
          (match latestYearForState store "" with
           | some yv => intStr (yv : Int)
           | none => "undefined") ++
          " ORDER BY stage_pct DESC LIMIT 50;") := by
  refine ⟨buildSQL_has_byYear, ?_, ?_, ?_, ?_⟩
  · intro y latest h
    unfold byYearClause
    simp only [h, if_true]
  · intro y latest h
    unfold byYearClause
    simp only [h, Bool.false_eq_true, if_false]
  · intro store p hd
    unfold buildSQL
    simp only [hd, if_true, String.data_append]
    exact ⟨_, rfl⟩
  · intro store p hd hs
    unfold buildSQL
    simp only [hd, hs, Bool.false_eq_true, if_false]

def storeC6 : Store := [⟨"Gujarat", "Mehsana", 2019⟩, ⟨"Gujarat", "Mehsana", 2020⟩]

def parsedC6 : Parsed :=
  ⟨"DATA", ⟨JVal.jnum 2019, JVal.jnum 2020⟩, ⟨"district", "Gujarat", "Mehsana"⟩,
   none, "deterministic"⟩

/-- Witness for C6 at the specification Gujarat/Mehsana 2019–2020
example: the built district statement embeds the explicit
`BETWEEN 2019 AND 2020` clause and is ordered by year ascending. -/
theorem C6_year_scope_witness :
    listHas ("AND year BETWEEN 2019 AND 2020" : String).data
      (buildSQL storeC6 parsedC6).data = true ∧
    ∃ pre : List Char,
      (buildSQL storeC6 parsedC6).data = pre ++ (" ORDER BY year;" : String).data := by
  constructor
  · have h1 := C6_year_scope.1 storeC6 parsedC6 (by decide)
    have h2 := C6_year_scope.2.1 parsedC6.years
      (latestYearForState storeC6 parsedC6.place.state) (by decide)
    rw [h2] at h1
    exact h1
  · exact C6_year_scope.2.2.2.1 storeC6 parsedC6 (by decide)

def parsedC6bad : Parsed :=
  ⟨"DATA", ⟨JVal.jnum 2019, JVal.jnum 2020⟩, ⟨"unknown", "", ""⟩, none, "deterministic"⟩

/-- C6 counterexample: at unknown (national) place level with both year
bounds given, the built statement contains no BETWEEN clause at all —
the explicit range is ignored in favour of the globally latest year —
so the claimed range filter does not hold at every place level. -/
theorem C6_year_scope_cex :
    (truthyJ parsedC6bad.years.y1 && truthyJ parsedC6bad.years.y2) = true ∧
    listHas ("BETWEEN" : String).data (buildSQL storeC6 parsedC6bad).data = false ∧
    listHas ("WHERE year=2020" : String).data (buildSQL storeC6 parsedC6bad).data = true := by
  refine ⟨by decide, by decide, by decide⟩

/-! ### Fold min/max lemmas -/

lemma listMin_le_init : ∀ (ys : List Nat) (a : Nat), listMin a ys ≤ a := by
  intro ys
  induction ys with
  | nil => intro a; exact Nat.le_refl a
  | cons x xs ih =>
      intro a
      calc listMin (min a x) xs ≤ min a x := ih (min a x)
        _ ≤ a := Nat.min_le_left a x

lemma listMin_le_mem : ∀ (ys : List Nat) (a y : Nat), y ∈ ys → listMin a ys ≤ y := by
  intro ys
  induction ys with
  | nil => intro a y h; cases h
  | cons x xs ih =>
      intro a y h
      cases List.mem_cons.mp h with
      | inl he =>
          subst he
          calc listMin (min a y) xs ≤ min a y := listMin_le_init xs (min a y)
            _ ≤ y := Nat.min_le_right a y
      | inr hm => exact ih (min a x) y hm

lemma listMin_mem_or : ∀ (ys : List Nat) (a : Nat), listMin a ys = a ∨ listMin a ys ∈ ys := by
  intro ys
  induction ys with
  | nil => intro a; exact Or.inl rfl
  | cons x xs ih =>
      intro a
      cases ih (min a x) with
      | inl h =>
          rw [show listMin a (x :: xs) = listMin (min a x) xs from rfl, h]
          rcases Nat.le_total a x with hax | hxa
          · exact Or.inl (Nat.min_eq_left hax)
          · refine Or.inr ?_
            rw [Nat.min_eq_right hxa]
            exact List.mem_cons_self x xs
      | inr h => exact Or.inr (List.mem_cons_of_mem x h)

lemma listMax_ge_init : ∀ (ys : List Nat) (a : Nat), a ≤ listMax a ys := by
  intro ys
  induction ys with
  | nil => intro a; exact Nat.le_refl a
  | cons x xs ih =>
      intro a
      calc a ≤ max a x := Nat.le_max_left a x
        _ ≤ listMax (max a x) xs := ih (max a x)

lemma listMax_ge_mem : ∀ (ys : List Nat) (a y : Nat), y ∈ ys → y ≤ listMax a ys := by
  intro ys
  induction ys with
  | nil => intro a y h; cases h
  | cons x xs ih =>
      intro a y h
      cases List.mem_cons.mp h with
      | inl he =>
          subst he
          calc y ≤ max a y := Nat.le_max_right a y
            _ ≤ listMax (max a y) xs := listMax_ge_init xs (max a y)
      | inr hm => exact ih (max a x) y hm

lemma listMax_mem_or : ∀ (ys : List Nat) (a : Nat), listMax a ys = a ∨ listMax a ys ∈ ys := by
  intro ys
  induction ys with
  | nil => intro a; exact Or.inl rfl
  | cons x xs ih =>
      intro a
      cases ih (max a x) with
      | inl h =>
          rw [show listMax a (x :: xs) = listMax (max a x) xs from rfl, h]
          rcases Nat.le_total a x with hax | hxa
          · exact Or.inr (by rw [Nat.max_eq_right hax]; exact List.mem_cons_self x xs)
          · exact Or.inl (Nat.max_eq_left hxa)
      | inr h => exact Or.inr (List.mem_cons_of_mem x h)

/-! ### Claim C5 -/

/-- C5 (amended).  Absolute temporal extraction: if the two-year range
pattern matches, the result is the minimum and maximum of its two
years; otherwise, over the left-to-right non-overlapping occurrences of
`(19|20)` followed by two digits (occurrences embedded in longer digit
runs included), zero occurrences yield no result, a single occurrence Y
yields {Y, Y}, and with two or more occurrences y1/y2 are occurrences
and bound every occurrence below/above. -/
theorem C5_absolute_years :
    (∀ (t : String) (a b : Nat), rangeFind t.data = some (a, b) →
      parseYearsAbsolute t = ⟨JVal.jnum (min a b : Nat), JVal.jnum (max a b : Nat)⟩) ∧
    (∀ t : String, rangeFind t.data = none → yearScan t.data = [] →
      parseYearsAbsolute t = noYears) ∧
    (∀ (t : String) (y : Nat), rangeFind t.data = none → yearScan t.data = [y] →
      parseYearsAbsolute t = ⟨JVal.jnum y, JVal.jnum y⟩) ∧
    (∀ (t : String) (y : Nat) (ys : List Nat),
      rangeFind t.data = none → yearScan t.data = y :: ys →
      ∃ lo hi : Nat,
        parseYearsAbsolute t = ⟨JVal.jnum lo, JVal.jnum hi⟩ ∧
        lo ∈ y :: ys ∧ hi ∈ y :: ys ∧
        ∀ z ∈ y :: ys, lo ≤ z ∧ z ≤ hi) := by
  refine ⟨?_, ?_, ?_, ?_⟩
  · intro t a b h
    unfold parseYearsAbsolute
    rw [h]
  · intro t h1 h2
    unfold parseYearsAbsolute
    rw [h1, h2]
  · intro t y h1 h2
    unfold parseYearsAbsolute
    rw [h1, h2]
  · intro t y ys h1 h2
    unfold parseYearsAbsolute
    rw [h1, h2]
    cases ys with
    | nil =>
        refine ⟨y, y, rfl, List.mem_singleton_self y, List.mem_singleton_self y, ?_⟩
        intro z hz
        rw [List.mem_singleton.mp hz]
        exact ⟨Nat.le_refl y, Nat.le_refl y⟩
    | cons y2 ys2 =>
        refine ⟨listMin y (y2 :: ys2), listMax y (y2 :: ys2), rfl, ?_, ?_, ?_⟩
        · cases listMin_mem_or (y2 :: ys2) y with
          | inl h => rw [h]; exact List.mem_cons_self y (y2 :: ys2)
          | inr h => exact List.mem_cons_of_mem y h
        · cases listMax_mem_or (y2 :: ys2) y with
          | inl h => rw [h]; exact List.mem_cons_self y (y2 :: ys2)
          | inr h => exact List.mem_cons_of_mem y h
        · intro z hz
          cases List.mem_cons.mp hz with
          | inl he =>
              subst he
              exact ⟨listMin_le_init (y2 :: ys2) z, listMax_ge_init (y2 :: ys2) z⟩
          | inr hm =>
              exact ⟨listMin_le_mem (y2 :: ys2) y z hm, listMax_ge_mem (y2 :: ys2) y z hm⟩

/-- C5 counterexample: the text contains no *standalone* four-digit
year (the only `(19|20)dd` occurrence sits inside the five-digit run
12019), yet absolute extraction returns {2019, 2019} — the matches are
pattern occurrences, standalone or not, so the claimed standalone
reading fails. -/
theorem C5_absolute_years_cex :
    standaloneYears "a 12019 b" = [] ∧
    parseYearsAbsolute "a 12019 b" = ⟨JVal.jnum 2019, JVal.jnum 2019⟩ := by
  refine ⟨by decide, by decide⟩

/-- Witness for C5 on concrete questions exercising the range, empty,
single and multiple cases. -/
theorem C5_absolute_years_witness :
    parseYearsAbsolute "rain 1999 to 2020 ok" = ⟨JVal.jnum 1999, JVal.jnum 2020⟩ ∧
    parseYearsAbsolute "none here 123" = noYears ∧
    parseYearsAbsolute "only 2017 here" = ⟨JVal.jnum 2017, JVal.jnum 2017⟩ ∧
    (∃ lo hi : Nat,
      parseYearsAbsolute "in 2004 and 2001 and 2017" = ⟨JVal.jnum lo, JVal.jnum hi⟩ ∧
      lo ∈ [2004, 2001, 2017] ∧ hi ∈ [2004, 2001, 2017] ∧
      ∀ z ∈ [2004, 2001, 2017], lo ≤ z ∧ z ≤ hi) := by
  refine ⟨?_, ?_, ?_, ?_⟩
  · have h := C5_absolute_years.1 "rain 1999 to 2020 ok" 1999 2020 (by decide)
    rw [h]; decide
  · exact C5_absolute_years.2.1 "none here 123" (by decide) (by decide)
  · exact C5_absolute_years.2.2.1 "only 2017 here" 2017 (by decide) (by decide)
  · exact C5_absolute_years.2.2.2 "in 2004 and 2001 and 2017" 2004 [2001, 2017]
      (by decide) (by decide)

/-! ### Claim C4 -/

set_option maxHeartbeats 1000000 in
lemma wordsToNum_range (w : String) (n : Nat) (h : wordsToNum w = some n) :
    1 ≤ n ∧ n ≤ 10 := by
  unfold wordsToNum at h
  split_ifs at h
  all_goals injection h with h
  all_goals omega

/-- Structural characterization of a successful relative parse. -/
lemma parseYearsRelative_char (t : String) (latest : Option Nat) (r : Years)
    (h : parseYearsRelative t latest = some r) :
    ∃ (n y : Nat), 1 ≤ n ∧ n ≤ 10 ∧ latest = some y ∧
      r = ⟨JVal.jnum ((y : Int) - (n - 1 : Nat)), JVal.jnum (y : Int)⟩ := by
  unfold parseYearsRelative at h
  cases hm : relFind none (lowerStr t).data with
  | none => rw [hm] at h; cases h
  | some tok =>
      rw [hm] at h
      cases latest with
      | none => simp at h
      | some y =>
          by_cases hy : y = 0
          · subst hy; simp at h
          · have hok : ((y : Nat) != 0) = true := by simpa using hy
            simp only [hok, Bool.not_true, Bool.false_eq_true, if_false] at h
            cases hw : wordsToNum ⟨tok⟩ with
            | none => rw [hw] at h; cases h
            | some n =>
                rw [hw] at h
                have hr := wordsToNum_range ⟨tok⟩ n hw
                exact ⟨n, y, hr.1, hr.2, rfl, (Option.some.inj h).symm⟩

/-- C4.  The relative temporal pass: a successful parse yields
`y2 = anchor` and `y1 = anchor − (N − 1)` for some N in 1..10; no
anchor (absent or zero, i.e. falsy) yields nothing; the shared guarded
assignment leaves the years untouched whenever the current extraction
already has a (truthy) first year, and installs the relative window
otherwise; and "last 3 years" anchored at 2021 yields {2019, 2021}. -/
theorem C4_relative_years :
    (∀ (t : String) (latest : Option Nat) (r : Years),
      parseYearsRelative t latest = some r →
      ∃ (n y : Nat), 1 ≤ n ∧ n ≤ 10 ∧ latest = some y ∧
        r = ⟨JVal.jnum ((y : Int) - (n - 1 : Nat)), JVal.jnum (y : Int)⟩) ∧
    (∀ t : String, parseYearsRelative t none = none) ∧
    (∀ t : String, parseYearsRelative t (some 0) = none) ∧
    (∀ (p : Parsed) (rel : Option Years), truthyJ p.years.y1 = true →
      applyRel p rel = p) ∧
    (∀ (p : Parsed) (r : Years), truthyJ p.years.y1 = false →
      applyRel p (some r) = { p with years := r }) ∧
    parseYearsRelative "last 3 years" (some 2021) =
      some ⟨JVal.jnum 2019, JVal.jnum 2021⟩ := by
  refine ⟨parseYearsRelative_char, ?_, ?_, ?_, ?_, by decide⟩
  · intro t
    unfold parseYearsRelative
    cases relFind none (lowerStr t).data <;> simp
  · intro t
    unfold parseYearsRelative
    cases relFind none (lowerStr t).data <;> simp
  · intro p rel h
    unfold applyRel
    simp [h]
  · intro p r h
    unfold applyRel
    simp [h]

def parsedC4 : Parsed :=
  ⟨"DATA", ⟨JVal.jnum 2020, JVal.jnum 2020⟩, ⟨"state", "Gujarat", ""⟩,
   none, "deterministic"⟩

/-- Witness for C4: the structural characterization applied to the
anchored "last 3 years" parse, and the guard applied to an extraction
that already has a year. -/
theorem C4_relative_years_witness :
    (∃ (n y : Nat), 1 ≤ n ∧ n ≤ 10 ∧ (some 2021 : Option Nat) = some y ∧
      (⟨JVal.jnum 2019, JVal.jnum 2021⟩ : Years) =
        ⟨JVal.jnum ((y : Int) - (n - 1 : Nat)), JVal.jnum (y : Int)⟩) ∧
    applyRel parsedC4 (some ⟨JVal.jnum 1, JVal.jnum 1⟩) = parsedC4 :=
  ⟨C4_relative_years.1 "last 3 years" (some 2021)
      ⟨JVal.jnum 2019, JVal.jnum 2021⟩ (by decide),
   C4_relative_years.2.2.2.1 parsedC4 (some ⟨JVal.jnum 1, JVal.jnum 1⟩) (by decide)⟩

/-! ### Claim C3 -/

/-- C3.  The category extractor is the four-tier ordered substring
cascade over the lowercased question — over-exploited, then critical,
then semi-critical, then safe: the first tier whose trigger fires wins,
no firing trigger yields no category, and in particular any input
containing an over-exploited trigger maps to Over-Exploited, never to
Critical. -/
theorem C3_category_cascade :
    (∀ q : String, overTrig (lowerStr q) = true →
      categoryOf q = some "Over-Exploited") ∧
    (∀ q : String, overTrig (lowerStr q) = false → critTrig (lowerStr q) = true →
      categoryOf q = some "Critical") ∧
    (∀ q : String, overTrig (lowerStr q) = false → critTrig (lowerStr q) = false →
      semiTrig (lowerStr q) = true → categoryOf q = some "Semi-Critical") ∧
    (∀ q : String, overTrig (lowerStr q) = false → critTrig (lowerStr q) = false →
      semiTrig (lowerStr q) = false → safeTrig (lowerStr q) = true →
      categoryOf q = some "Safe") ∧
    (∀ q : String, overTrig (lowerStr q) = false → critTrig (lowerStr q) = false →
      semiTrig (lowerStr q) = false → safeTrig (lowerStr q) = false →
      categoryOf q = none) := by
  refine ⟨?_, ?_, ?_, ?_, ?_⟩
  · intro q h; unfold categoryOf; simp [h]
  · intro q h1 h2; unfold categoryOf; simp [h1, h2]
  · intro q h1 h2 h3; unfold categoryOf; simp [h1, h2, h3]
  · intro q h1 h2 h3 h4; unfold categoryOf; simp [h1, h2, h3, h4]
  · intro q h1 h2 h3 h4; unfold categoryOf; simp [h1, h2, h3, h4]

/-- Witness for C3: an input containing both the over-exploited trigger
and the critical trigger is classified Over-Exploited, an input with
only the critical trigger is classified Critical, and a trigger-free
input gets no category. -/
theorem C3_category_cascade_witness :
    categoryOf "Over-Exploited and critical blocks" = some "Over-Exploited" ∧
    categoryOf "critical blocks" = some "Critical" ∧
    categoryOf "rainfall data" = none :=
  ⟨C3_category_cascade.1 "Over-Exploited and critical blocks" (by decide),
   C3_category_cascade.2.1 "critical blocks" (by decide) (by decide),
   C3_category_cascade.2.2.2.2 "rainfall data" (by decide) (by decide) (by decide)
     (by decide)⟩

/-! ### Claim C2 -/

lemma pickD_mono (text : String) :
    ∀ (l : List (String × String)) (b : String × String),
      ∃ b', l.foldl (pickD text) (some b) = some b' ∧ b.2.length ≤ b'.2.length := by
  intro l
  induction l with
  | nil => intro b; exact ⟨b, rfl, Nat.le_refl _⟩
  | cons x xs ih =>
      intro b
      show ∃ b', xs.foldl (pickD text) (pickD text (some b) x) = some b' ∧ _
      unfold pickD
      by_cases hc : containsName text x.2 = true
      · simp only [hc, if_true]
        by_cases hl : x.2.length > b.2.length
        · simp only [hl, if_true]
          obtain ⟨b', hb', hlen⟩ := ih x
          exact ⟨b', hb', Nat.le_trans (Nat.le_of_lt hl) hlen⟩
        · simp only [hl, if_false]
          exact ih b
      · simp only [eq_false_of_ne_true hc, Bool.false_eq_true, if_false]
        exact ih b

lemma pickD_matched (text : String) :
    ∀ (l : List (String × String)) (acc : Option (String × String)),
      (∀ b, acc = some b → containsName text b.2 = true) →
      ∀ b', l.foldl (pickD text) acc = some b' → containsName text b'.2 = true := by
  intro l
  induction l with
  | nil => intro acc hacc b' hb'; exact hacc b' hb'
  | cons x xs ih =>
      intro acc hacc b' hb'
      refine ih (pickD text acc x) ?_ b' hb'
      intro b hb
      unfold pickD at hb
      by_cases hc : containsName text x.2 = true
      · simp only [hc, if_true] at hb
        cases hacc0 : acc with
        | none =>
            rw [hacc0] at hb
            cases hb
            exact hc
        | some b0 =>
            rw [hacc0] at hb
            by_cases hl : x.2.length > b0.2.length
            · simp only [hl, if_true] at hb
              cases hb
              exact hc
            · simp only [hl, if_false] at hb
              injection hb with hbe
              subst hbe
              exact hacc b0 hacc0
      · simp only [eq_false_of_ne_true hc, Bool.false_eq_true, if_false] at hb
        exact hacc b hb

lemma pickD_dominates (text : String) :
    ∀ (l : List (String × String)) (acc : Option (String × String)),
      ∀ r ∈ l, containsName text r.2 = true →
      ∃ b', l.foldl (pickD text) acc = some b' ∧ r.2.length ≤ b'.2.length := by
  intro l
  induction l with
  | nil => intro acc r hr; cases hr
  | cons x xs ih =>
      intro acc r hr hcont
      cases List.mem_cons.mp hr with
      | inl he =>
          subst he
          show ∃ b', xs.foldl (pickD text) (pickD text acc r) = some b' ∧ _
          unfold pickD
          simp only [hcont, if_true]
          cases acc with
          | none => exact pickD_mono text xs r
          | some b0 =>
              by_cases hl : r.2.length > b0.2.length
              · simp only [hl, if_true]
                exact pickD_mono text xs r
              · simp only [hl, if_false]
                obtain ⟨b', hb', hlen⟩ := pickD_mono text xs b0
                exact ⟨b', hb', Nat.le_trans (Nat.le_of_not_lt hl) hlen⟩
      | inr hm => exact ih (pickD text acc x) r hm hcont

/-- C2 (amended).  After the abbreviation-synonym pass (which precedes
everything and yields a state), district resolution precedes state
resolution: whenever no synonym fires and some known district matcher
fires on the normalized text, the resolver returns a district-level
place whose district matches and whose name length dominates every
matching district — the longest-match tie-break. -/
theorem C2_district_longest_match :
    ∀ (store : Store) (q : String),
      synFind (collapseWs q) = none →
      (∃ r ∈ distinctPairs store, containsName (collapseWs q) r.2 = true) →
      ∃ st d : String,
        resolvePlaceSmart store q = ⟨"district", st, d⟩ ∧
        containsName (collapseWs q) d = true ∧
        ∀ r ∈ distinctPairs store, containsName (collapseWs q) r.2 = true →
          r.2.length ≤ d.length := by
  intro store q hsyn hex
  obtain ⟨r, hrmem, hrcont⟩ := hex
  obtain ⟨b', hb', _⟩ :=
    pickD_dominates (collapseWs q) (distinctPairs store) none r hrmem hrcont
  obtain ⟨s1, d1⟩ := b'
  have hmatch := pickD_matched (collapseWs q) (distinctPairs store) none
    (fun b hb => by cases hb) (s1, d1) hb'
  refine ⟨s1, d1, ?_, hmatch, ?_⟩
  · unfold resolvePlaceSmart
    simp only [hsyn]
    rw [show bestDistrict store (collapseWs q) = some (s1, d1) from hb']
  · intro r2 hmem2 hcont2
    obtain ⟨b'', hb'', hlen2⟩ :=
      pickD_dominates (collapseWs q) (distinctPairs store) none r2 hmem2 hcont2
    have heq : b'' = (s1, d1) := by
      have := hb''.symm.trans hb'
      exact Option.some.inj this
    rw [heq] at hlen2
    simpa using hlen2

def storeC2 : Store :=
  [⟨"MAHARASHTRA", "Pune", 2022⟩, ⟨"MAHARASHTRA", "Pune Rural", 2022⟩]

/-- Witness for C2: with overlapping known names Pune and Pune Rural, a
question mentioning Pune Rural resolves to the district Pune Rural, the
longest matching district. -/
theorem C2_district_longest_match_witness :
    (∃ st d : String,
      resolvePlaceSmart storeC2 "water in Pune Rural please" = ⟨"district", st, d⟩ ∧
      containsName (collapseWs "water in Pune Rural please") d = true ∧
      ∀ r ∈ distinctPairs storeC2,
        containsName (collapseWs "water in Pune Rural please") r.2 = true →
        r.2.length ≤ d.length) ∧
    resolvePlaceSmart storeC2 "water in Pune Rural please" =
      ⟨"district", "MAHARASHTRA", "Pune Rural"⟩ :=
  ⟨C2_district_longest_match storeC2 "water in Pune Rural please" (by decide)
      ⟨("MAHARASHTRA", "Pune Rural"), by decide, by decide⟩,
   by decide⟩

def storeC2cex : Store := [⟨"MAHARASHTRA", "Pune", 2022⟩]

/-- C2 counterexample: on the input pune tn a known district matcher
fires, yet the resolver returns a state-level place — the fixed
abbreviation-synonym pass resolves the state TN before district
resolution is ever attempted, so district resolution does not precede
state resolution for every input text. -/
theorem C2_district_longest_match_cex :
    containsName (collapseWs "pune tn") "Pune" = true ∧
    ("MAHARASHTRA", "Pune") ∈ distinctPairs storeC2cex ∧
    resolvePlaceSmart storeC2cex "pune tn" = ⟨"state", "TAMIL NADU", ""⟩ := by
  refine ⟨by decide, by decide, by decide⟩

/-! ### Claim C8 -/

lemma lineTerm_isWs (c : Char) (h : isLineTermCh c = true) : isJsWs c = true := by
  unfold isLineTermCh at h
  simp only [Bool.or_eq_true, beq_iff_eq] at h
  rcases h with ((h | h) | h) | h <;> subst h <;> decide

lemma lineHasNonWs_iff (l : List Char) :
    lineHasNonWs l = true ↔
      ∃ mid c post, l = mid ++ c :: post ∧
        (∀ x ∈ mid, isJsWs x = true ∧ isLineTermCh x = false) ∧
        isJsWs c = false := by
  constructor
  · intro h
    induction l with
    | nil => cases h
    | cons c cs ih =>
        unfold lineHasNonWs at h
        by_cases ht : isLineTermCh c = true
        · simp [ht] at h
        · simp only [eq_false_of_ne_true ht, Bool.false_eq_true, if_false] at h
          by_cases hw : isJsWs c = true
          · simp only [hw, Bool.not_true, Bool.false_eq_true, if_false] at h
            obtain ⟨mid, c', post, heq, hmid, hc'⟩ := ih h
            refine ⟨c :: mid, c', post, by rw [heq, List.cons_append], ?_, hc'⟩
            intro x hx
            cases List.mem_cons.mp hx with
            | inl he => subst he; exact ⟨hw, eq_false_of_ne_true ht⟩
            | inr hm => exact hmid x hm
          · exact ⟨[], c, cs, rfl,
              ⟨fun x hx => absurd hx (List.not_mem_nil x), eq_false_of_ne_true hw⟩⟩
  · intro ⟨mid, c, post, heq, hmid, hc⟩
    subst heq
    induction mid with
    | nil =>
        unfold lineHasNonWs
        have ht : isLineTermCh c = false := by
          cases hterm : isLineTermCh c with
          | true => rw [lineTerm_isWs c hterm] at hc; cases hc
          | false => rfl
        simp only [List.nil_append, ht, Bool.false_eq_true, if_false, hc,
          Bool.not_false, if_true]
    | cons m mid' ih =>
        have hm := hmid m (List.mem_cons_self m mid')
        unfold lineHasNonWs
        rw [List.cons_append]
        simp only [hm.2, Bool.false_eq_true, if_false, hm.1, Bool.not_true,
          Bool.false_eq_true, if_false]
        exact ih (fun x hx => hmid x (List.mem_cons_of_mem m hx))

lemma guardScan_iff (l : List Char) :
    guardScan l = true ↔
      ∃ pre rest, l = pre ++ ';' :: rest ∧ lineHasNonWs rest = true := by
  constructor
  · intro h
    induction l with
    | nil => cases h
    | cons c cs ih =>
        unfold guardScan at h
        rcases Bool.or_eq_true_iff.mp h with h1 | h2
        · obtain ⟨hc, hline⟩ := Bool.and_eq_true_iff.mp h1
          refine ⟨[], cs, ?_, hline⟩
          rw [List.nil_append, show c = ';' from by simpa using hc]
        · obtain ⟨pre, rest, heq, hline⟩ := ih h2
          exact ⟨c :: pre, rest, by rw [heq, List.cons_append], hline⟩
  · intro ⟨pre, rest, heq, hline⟩
    subst heq
    induction pre with
    | nil =>
        unfold guardScan
        rw [List.nil_append]
        simp [hline]
    | cons p pre' ih =>
        rw [List.cons_append]
        unfold guardScan
        rw [ih]
        simp

/-- C8 (amended).  The injection guard fires exactly when the built
statement contains a semicolon followed by a non-whitespace character
with no line terminator in between — the regex dot does not cross
lines, so a terminator followed by content on a later line is not
rejected; a statement on which the guard fires is answered with the
Invalid SQL client error and never executed (empty trace). -/
theorem C8_injection_guard :
    (∀ sql : String, guardFires sql = true ↔
      ∃ pre mid c post,
        sql.data = pre ++ ';' :: (mid ++ c :: post) ∧
        (∀ x ∈ mid, isJsWs x = true ∧ isLineTermCh x = false) ∧
        isJsWs c = false) ∧
    (∀ (store : Store) (runSQL : String → List Row) (g1 g2 : Option Parsed)
        (geminiOn : Bool) (body : String),
      (collapseWs body == "") = false →
      guardFires (buildSQL store (stageParsed store geminiOn g1 (collapseWs body))) = true →
      answer store runSQL geminiOn g1 g2 body =
        ⟨some "Invalid SQL", stageParsed store geminiOn g1 (collapseWs body), [], []⟩) := by
  constructor
  · intro sql
    unfold guardFires
    rw [guardScan_iff]
    constructor
    · intro ⟨pre, rest, heq, hline⟩
      obtain ⟨mid, c, post, heq2, hmid, hc⟩ := (lineHasNonWs_iff rest).mp hline
      exact ⟨pre, mid, c, post, by rw [heq, heq2], hmid, hc⟩
    · intro ⟨pre, mid, c, post, heq, hmid, hc⟩
      exact ⟨pre, mid ++ c :: post, heq, (lineHasNonWs_iff _).mpr ⟨mid, c, post, rfl, hmid, hc⟩⟩
  · intro store runSQL g1 g2 geminiOn body hq hg
    unfold answer
    simp only [hq, Bool.false_eq_true, if_false, hg, if_true]

def llmC8 : Parsed :=
  ⟨"DATA", ⟨JVal.jstr "2020", JVal.jstr "2020;\nZAP"⟩, ⟨"district", "X", "Y"⟩,
   none, "gemini"⟩

/-- C8 counterexample: a built statement containing a statement
terminator followed by further non-whitespace content (on the next
line) passes the guard and is executed — the guard only catches
same-line content, so the claimed unconditional rejection fails. -/
theorem C8_injection_guard_cex :
    termThenNonWs (buildSQL [] llmC8).data = true ∧
    guardFires (buildSQL [] llmC8) = false ∧
    (answer [] (fun _ => []) true (some llmC8) none "zqzq").err = none ∧
    (answer [] (fun _ => []) true (some llmC8) none "zqzq").trace = [buildSQL [] llmC8] := by
  refine ⟨by decide, by decide, by decide, by decide⟩

def llmC8w : Parsed :=
  ⟨"DATA", ⟨JVal.jstr "1", JVal.jstr "1; ZAP"⟩, ⟨"district", "X", "Y"⟩,
   none, "gemini"⟩

/-- Witness for C8: a built statement with a same-line terminator plus
content is rejected as Invalid SQL with nothing executed, and the
guard characterization applied to a concrete string. -/
theorem C8_injection_guard_witness :
    answer [] (fun _ => []) true (some llmC8w) none "zqzq" =
      ⟨some "Invalid SQL", stageParsed [] true (some llmC8w) (collapseWs "zqzq"), [], []⟩ ∧
    guardFires "a; b" = true :=
  ⟨C8_injection_guard.2 [] (fun _ => []) (some llmC8w) none true "zqzq"
      (by decide) (by decide),
   (C8_injection_guard.1 "a; b").mpr
     ⟨['a'], [' '], 'b', [], by decide, by decide, by decide⟩⟩

/-! ### Claim C9 -/

/-- Ordered year bounds: whenever both bounds are (numeric) values,
the first does not exceed the second.  (Bounds that are absent, or
non-numeric strings, carry no ordering obligation.) -/
def yearsOrd (y : Years) : Prop :=
  ∀ a b : Int, y.y1 = JVal.jnum a → y.y2 = JVal.jnum b → a ≤ b

lemma yearsOrd_noYears : yearsOrd noYears := by
  intro a b h1 _
  cases h1

lemma yearsOrd_abs (q : String) : yearsOrd (parseYearsAbsolute q) := by
  unfold parseYearsAbsolute
  cases rangeFind q.data with
  | some ab =>
      obtain ⟨x, y⟩ := ab
      intro a b h1 h2
      injection h1 with h1
      injection h2 with h2
      subst h1; subst h2
      have : min x y ≤ max x y :=
        Nat.le_trans (Nat.min_le_left x y) (Nat.le_max_left x y)
      exact_mod_cast this
  | none =>
      cases hys : yearScan q.data with
      | nil => exact yearsOrd_noYears
      | cons y ys =>
          cases ys with
          | nil =>
              intro a b h1 h2
              injection h1 with h1
              injection h2 with h2
              omega
          | cons y2 ys2 =>
              intro a b h1 h2
              injection h1 with h1
              injection h2 with h2
              subst h1; subst h2
              have : listMin y (y2 :: ys2) ≤ listMax y (y2 :: ys2) :=
                Nat.le_trans (listMin_le_init (y2 :: ys2) y)
                  (listMax_ge_init (y2 :: ys2) y)
              exact_mod_cast this

lemma yearsOrd_rel (t : String) (latest : Option Nat) (r : Years)
    (h : parseYearsRelative t latest = some r) : yearsOrd r := by
  obtain ⟨n, y, hn1, hn10, hl, hr⟩ := parseYearsRelative_char t latest r h
  subst hr
  intro a b h1 h2
  injection h1 with h1
  injection h2 with h2
  subst h1; subst h2
  have : ((n - 1 : Nat) : Int) ≥ 0 := Int.natCast_nonneg _
  omega

lemma yearsOrd_applyRel (p : Parsed) (rel : Option Years)
    (hp : yearsOrd p.years) (hrel : ∀ r, rel = some r → yearsOrd r) :
    yearsOrd ((applyRel p rel).years) := by
  unfold applyRel
  cases ht : truthyJ p.years.y1 with
  | true => simpa [ht] using hp
  | false =>
      cases hr : rel with
      | none => simpa [ht, hr] using hp
      | some r => simpa [ht, hr] using hrel r hr

lemma yearsOrd_optJ (l : Option Nat) : yearsOrd ⟨optJ l, optJ l⟩ := by
  cases l with
  | none => intro a b h1 _; cases h1
  | some n =>
      intro a b h1 h2
      injection h1 with h1
      injection h2 with h2
      omega

lemma stageParsed_off (store : Store) (g1 : Option Parsed) (q : String) :
    stageParsed store false g1 q =
      applyRel (detParse store q)
        (parseYearsRelative q
          (latestYearForState store (detParse store q).place.state)) := by
  unfold stageParsed
  simp

lemma gemRecover_off (store : Store) (q : String) (g2 : Option Parsed)
    (runSQL : String → List Row) (p : Parsed) (sql : String) (rows : List Row) :
    gemRecover store q false g2 runSQL p sql rows = (p, sql, rows, []) := rfl

lemma yearsOrd_stageParsed_off (store : Store) (g1 : Option Parsed) (q : String) :
    yearsOrd ((stageParsed store false g1 q).years) := by
  rw [stageParsed_off]
  exact yearsOrd_applyRel _ _ (yearsOrd_abs q)
    (fun r hr => yearsOrd_rel _ _ r hr)

/-- C9 (amended).  In a fully deterministic run (corrective service
unavailable or failing), the final structured query always satisfies
the ordering invariant: whenever both year bounds carry numeric values,
y1 ≤ y2.  (The deterministic extractions and the year-reset correction
all produce ordered bounds; only corrective-service year values can
break the invariant.) -/
theorem C9_years_ordered :
    ∀ (store : Store) (runSQL : String → List Row) (body : String),
      yearsOrd ((answer store runSQL false none none body).parsed.years) := by
  intro store runSQL body
  unfold answer
  cases hq : (collapseWs body == "") with
  | true =>
      simp only [hq, if_true]
      exact yearsOrd_noYears
  | false =>
      simp only [hq, Bool.false_eq_true, if_false]
      cases hg : guardFires (buildSQL store (stageParsed store false none (collapseWs body))) with
      | true =>
          simp only [hg, if_true]
          exact yearsOrd_stageParsed_off store none (collapseWs body)
      | false =>
          simp only [hg, Bool.false_eq_true, if_false]
          cases he : (runSQL (buildSQL store (stageParsed store false none (collapseWs body)))).isEmpty with
          | false =>
              simp only [he, Bool.false_eq_true, if_false]
              exact yearsOrd_stageParsed_off store none (collapseWs body)
          | true =>
              simp only [he, if_true, gemRecover_off]
              cases hr : parseYearsRelative (collapseWs body)
                  (latestYearForState store
                    (detParse store (collapseWs body)).place.state) with
              | none =>
                  simp only [Option.isSome_none, Bool.and_false, Bool.false_eq_true,
                    if_false]
                  exact yearsOrd_stageParsed_off store none (collapseWs body)
              | some r =>
                  simp only [Option.isSome_some, Bool.and_true, if_true]
                  exact yearsOrd_optJ _

def llmC9 : Parsed :=
  ⟨"DATA", ⟨JVal.jnum 2030, JVal.jnum 2020⟩, ⟨"state", "X", ""⟩, none, "gemini"⟩

/-- C9 counterexample: when the corrective parse supplies year bounds,
they are adopted wholesale without validation, so a run exists whose
final structured query carries y1 = 2030 > 2020 = y2 — the invariant
fails for queries produced by the correction step. -/
theorem C9_years_ordered_cex :
    (answer [] (fun _ => []) true (some llmC9) none "hello world").parsed.years =
      ⟨JVal.jnum 2030, JVal.jnum 2020⟩ ∧
    truthyJ (JVal.jnum 2030) = true ∧ truthyJ (JVal.jnum 2020) = true ∧
    ¬((2030 : Int) ≤ 2020) := by
  refine ⟨by decide, by decide, by decide, by decide⟩

/-- Witness for C9: a deterministic run with an explicit range ends
with ordered bounds, and the invariant instance follows from the
theorem. -/
theorem C9_years_ordered_witness :
    (answer [] (fun _ => []) false none none "water 1999 to 2001 in testland").parsed.years =
      ⟨JVal.jnum 1999, JVal.jnum 2001⟩ ∧
    (1999 : Int) ≤ 2001 := by
  constructor
  · decide
  · refine C9_years_ordered [] (fun _ => []) "water 1999 to 2001 in testland" 1999 2001 ?_ ?_
    · decide
    · decide

/-! ### Claim C7 -/

/-- The corrected structured query adopted after a confirmed corrective
parse: the service result replaces the parsed query wholesale, then the
relative pass is re-run against the corrected anchor. -/
def correctedParsed (store : Store) (q : String) (p llm : Parsed) : Parsed :=
  applyRel (mergeLLM p llm)
    (parseYearsRelative q (latestYearForState store llm.place.state))

lemma gemRecover_none (store : Store) (q : String) (gOn : Bool)
    (runSQL : String → List Row) (p : Parsed) (sql : String) (rows : List Row) :
    gemRecover store q gOn none runSQL p sql rows = (p, sql, rows, []) := by
  cases gOn <;> rfl

lemma gemRecover_state_fail (store : Store) (q : String)
    (runSQL : String → List Row) (p : Parsed) (sql : String) (rows : List Row)
    (llm : Parsed) (hl : (llm.place.level == "state") = true)
    (hp : stateExists store llm.place.state = false) :
    gemRecover store q true (some llm) runSQL p sql rows = (p, sql, rows, []) := by
  unfold gemRecover
  simp only [hl, hp, if_true, Bool.false_eq_true, if_false]

lemma gemRecover_district_fail (store : Store) (q : String)
    (runSQL : String → List Row) (p : Parsed) (sql : String) (rows : List Row)
    (llm : Parsed) (hl : (llm.place.level == "district") = true)
    (hp : districtExists store llm.place.state llm.place.district = false) :
    gemRecover store q true (some llm) runSQL p sql rows = (p, sql, rows, []) := by
  have hne : (llm.place.level == "state") = false := by
    have he : llm.place.level = "district" := by simpa using hl
    rw [he]; decide
  unfold gemRecover
  simp only [hne, hl, hp, if_true, Bool.false_eq_true, if_false]

lemma gemRecover_other (store : Store) (q : String)
    (runSQL : String → List Row) (p : Parsed) (sql : String) (rows : List Row)
    (llm : Parsed) (hs : (llm.place.level == "state") = false)
    (hd : (llm.place.level == "district") = false) :
    gemRecover store q true (some llm) runSQL p sql rows = (p, sql, rows, []) := by
  unfold gemRecover
  simp only [hs, hd, Bool.false_eq_true, if_false, if_true]

lemma gemRecover_accept (store : Store) (q : String)
    (runSQL : String → List Row) (p : Parsed) (sql : String) (rows : List Row)
    (llm : Parsed)
    (hacc : ((llm.place.level == "state") = true ∧
             stateExists store llm.place.state = true) ∨
            ((llm.place.level == "district") = true ∧
             districtExists store llm.place.state llm.place.district = true)) :
    gemRecover store q true (some llm) runSQL p sql rows =
      (correctedParsed store q p llm,
       buildSQL store (correctedParsed store q p llm),
       runSQL (buildSQL store (correctedParsed store q p llm)),
       [buildSQL store (correctedParsed store q p llm)]) := by
  unfold gemRecover correctedParsed
  cases hacc with
  | inl h =>
      simp only [h.1, h.2, if_true]
      rfl
  | inr h =>
      have hne : (llm.place.level == "state") = false := by
        have he : llm.place.level = "district" := by simpa using h.1
        rw [he]; decide
      simp only [hne, Bool.false_eq_true, if_false, h.1, h.2, if_true]
      rfl

/-- C7 (amended).  Empty-result recovery: a corrective place is adopted
only when the existence probe confirms it (a failed probe, a
non-state/district level, or a failed service call leave the parsed
query unchanged and execute nothing); on acceptance the orchestrator
re-executes exactly once against the corrected scope — unless a
relative-year expression was detected and the corrected execution is
still empty, in which case exactly one further re-execution occurs with
the year window reset to the corrected anchor. -/
theorem C7_corrective_retry :
    (∀ (store : Store) (q : String) (runSQL : String → List Row)
        (p : Parsed) (sql : String) (rows : List Row) (llm : Parsed),
      (llm.place.level == "state") = true →
      stateExists store llm.place.state = false →
      gemRecover store q true (some llm) runSQL p sql rows = (p, sql, rows, [])) ∧
    (∀ (store : Store) (q : String) (runSQL : String → List Row)
        (p : Parsed) (sql : String) (rows : List Row) (llm : Parsed),
      (llm.place.level == "district") = true →
      districtExists store llm.place.state llm.place.district = false →
      gemRecover store q true (some llm) runSQL p sql rows = (p, sql, rows, [])) ∧
    (∀ (store : Store) (q : String) (gOn : Bool) (runSQL : String → List Row)
        (p : Parsed) (sql : String) (rows : List Row),
      gemRecover store q gOn none runSQL p sql rows = (p, sql, rows, [])) ∧
    (∀ (store : Store) (runSQL : String → List Row) (g1 : Option Parsed)
        (llm : Parsed) (body : String),
      (collapseWs body == "") = false →
      guardFires (buildSQL store (stageParsed store true g1 (collapseWs body))) = false →
      runSQL (buildSQL store (stageParsed store true g1 (collapseWs body))) = [] →
      (((llm.place.level == "state") = true ∧
        stateExists store llm.place.state = true) ∨
       ((llm.place.level == "district") = true ∧
        districtExists store llm.place.state llm.place.district = true)) →
      (runSQL (buildSQL store (correctedParsed store (collapseWs body)
          (stageParsed store true g1 (collapseWs body)) llm)) ≠ [] ∨
       parseYearsRelative (collapseWs body)
         (latestYearForState store
           (detParse store (collapseWs body)).place.state) = none) →
      (answer store runSQL true g1 (some llm) body).trace =
        [buildSQL store (stageParsed store true g1 (collapseWs body)),
         buildSQL store (correctedParsed store (collapseWs body)
           (stageParsed store true g1 (collapseWs body)) llm)]) ∧
    (∀ (store : Store) (runSQL : String → List Row) (g1 : Option Parsed)
        (llm : Parsed) (body : String) (r : Years),
      (collapseWs body == "") = false →
      guardFires (buildSQL store (stageParsed store true g1 (collapseWs body))) = false →
      runSQL (buildSQL store (stageParsed store true g1 (collapseWs body))) = [] →
      (((llm.place.level == "state") = true ∧
        stateExists store llm.place.state = true) ∨
       ((llm.place.level == "district") = true ∧
        districtExists store llm.place.state llm.place.district = true)) →
      runSQL (buildSQL store (correctedParsed store (collapseWs body)
          (stageParsed store true g1 (collapseWs body)) llm)) = [] →
      parseYearsRelative (collapseWs body)
        (latestYearForState store
          (detParse store (collapseWs body)).place.state) = some r →
      (answer store runSQL true g1 (some llm) body).trace =
        [buildSQL store (stageParsed store true g1 (collapseWs body)),
         buildSQL store (correctedParsed store (collapseWs body)
           (stageParsed store true g1 (collapseWs body)) llm),
         buildSQL store
           { correctedParsed store (collapseWs body)
               (stageParsed store true g1 (collapseWs body)) llm with
             years :=
              ⟨optJ (latestYearForState store
                  (correctedParsed store (collapseWs body)
                    (stageParsed store true g1 (collapseWs body)) llm).place.state),
               optJ (latestYearForState store
                  (correctedParsed store (collapseWs body)
                    (stageParsed store true g1 (collapseWs body)) llm).place.state)⟩ }]) := by
  refine ⟨gemRecover_state_fail, gemRecover_district_fail, gemRecover_none, ?_, ?_⟩
  · intro store runSQL g1 llm body hq hg hrows hacc hstop
    unfold answer
    simp only [hq, Bool.false_eq_true, if_false, hg, hrows, List.isEmpty_nil, if_true,
      gemRecover_accept store (collapseWs body) runSQL _ _ _ llm hacc]
    cases hstop with
    | inl hne =>
        have hie : (runSQL (buildSQL store (correctedParsed store (collapseWs body)
            (stageParsed store true g1 (collapseWs body)) llm))).isEmpty = false := by
          cases hrun : runSQL (buildSQL store (correctedParsed store (collapseWs body)
              (stageParsed store true g1 (collapseWs body)) llm)) with
          | nil => exact absurd hrun hne
          | cons a as => rfl
        simp only [hie, Bool.false_and, Bool.false_eq_true, if_false]
    | inr hrel =>
        simp only [hrel, Option.isSome_none, Bool.and_false, Bool.false_eq_true, if_false]
  · intro store runSQL g1 llm body r hq hg hrows hacc hempty hrel
    unfold answer
    simp only [hq, Bool.false_eq_true, if_false, hg, hrows, List.isEmpty_nil, if_true,
      gemRecover_accept store (collapseWs body) runSQL _ _ _ llm hacc]
    simp only [hempty, List.isEmpty_nil, hrel, Option.isSome_some, Bool.and_true, if_true,
      List.nil_append, List.singleton_append]

def storeC7 : Store :=
  [⟨"A", "Foobar", 2010⟩, ⟨"A", "Othertown", 2022⟩,
   ⟨"B", "Dtown", 2010⟩, ⟨"B", "Etown", 2022⟩]

def llmC7 : Parsed :=
  ⟨"DATA", ⟨JVal.jnull, JVal.jnull⟩, ⟨"district", "B", "Dtown"⟩, none, "gemini"⟩

def parsedC7corr : Parsed :=
  ⟨"DATA", ⟨JVal.jnum 2022, JVal.jnum 2022⟩, ⟨"district", "B", "Dtown"⟩, none, "gemini"⟩

/-- C7 counterexample: a run in which the probe confirms the corrected
district, yet the corrected statement is executed twice before giving
up — the question carries a relative-year expression, the corrected
execution is empty, and the year-reset retry rebuilds the identical
statement — so the corrected scope is not re-executed exactly once. -/
theorem C7_corrective_retry_cex :
    districtExists storeC7 "B" "Dtown" = true ∧
    (answer storeC7 (fun _ => []) true none (some llmC7) "foobar last 1 year").trace =
      [buildSQL storeC7 (stageParsed storeC7 true none (collapseWs "foobar last 1 year")),
       buildSQL storeC7 parsedC7corr,
       buildSQL storeC7 parsedC7corr] ∧
    ((answer storeC7 (fun _ => []) true none (some llmC7) "foobar last 1 year").trace).count
      (buildSQL storeC7 parsedC7corr) = 2 ∧
    buildSQL storeC7 parsedC7corr ≠
      buildSQL storeC7 (stageParsed storeC7 true none (collapseWs "foobar last 1 year")) := by
  refine ⟨by decide, by decide, by decide, by decide⟩

def llmC7w : Parsed :=
  ⟨"DATA", ⟨JVal.jnull, JVal.jnull⟩, ⟨"state", "B", ""⟩, none, "gemini"⟩

def runSQLC7w : String → List Row := fun s =>
  if s == buildSQL storeC7 (correctedParsed storeC7 (collapseWs "foobar last 1 year")
      (stageParsed storeC7 true none (collapseWs "foobar last 1 year")) llmC7w) then
    [⟨"B", "Etown", 2022⟩]
  else []

/-- Witness for C7: with a probe-confirmed state correction whose
re-execution returns rows, the trace is exactly the initial statement
followed by one corrected execution. -/
theorem C7_corrective_retry_witness :
    (answer storeC7 runSQLC7w true none (some llmC7w) "foobar last 1 year").trace =
      [buildSQL storeC7 (stageParsed storeC7 true none (collapseWs "foobar last 1 year")),
       buildSQL storeC7 (correctedParsed storeC7 (collapseWs "foobar last 1 year")
         (stageParsed storeC7 true none (collapseWs "foobar last 1 year")) llmC7w)] :=
  C7_corrective_retry.2.2.2.1 storeC7 runSQLC7w none llmC7w "foobar last 1 year"
    (by decide) (by decide) (by decide) (Or.inl ⟨by decide, by decide⟩)
    (Or.inl (by decide))

end Ingres
